import Mathlib

/-!
# Fishing game: entity lifecycle, spawn/capture pipeline, collision detection

A shallow embedding of `src/game/{game,spawner,fish,bobber,player}.go`.

Modelling conventions

* `float64` values are exact rationals (`ℚ`).  A comparison `math.Sqrt(s) < r`
  is the exact comparison `0 < r ∧ s < r * r` (lemma `sqrt_lt_iff_sq_lt` ties it
  to the real square root).  Where the *value* of `math.Sqrt`, `math.Cos`,
  `math.Sin`, `math.Atan2` or `math.Pi` flows into the state, the function comes
  from a `MathLib` parameter.
* Every `rand.Float64()` draw is an explicit argument.
* Go `int` is `Int`; the counters move by at most 100 per event, so a 64-bit
  overflow needs more than `9 * 10 ^ 16` events and is not modelled.
* A buffered channel is the list of its queued items, oldest first; both
  channels of `NewGame` have capacity 10.  A `select` with a `default` branch is
  an `if` on whether the channel operation can proceed.
* Each goroutine step that runs under `g.mu` is one atomic function on the
  state; interleavings are lists of events.  `Event` and `step` take a whole
  `Update` as one step, which is enough to exhibit a run; `FineEvent` and
  `fineStep` take each statement of `Update` and of `resetAfterCatch` as a step,
  for what has to hold in every interleaving.
-/

namespace FishingGame

/-! ## Constants (game.go 16-24, spawner.go 10-15, player.go 20-23) -/

def ScreenWidth : ℚ := 640
def ScreenHeight : ℚ := 480
def LakeCenterX : ℚ := 320
def LakeCenterY : ℚ := 240
def LakeRadius : ℚ := 180

def MaxCommonFish : Int := 10
def MaxRareFish : Int := 6
def MaxEpicFish : Int := 4
def MaxLegendaryFish : Int := 1

def PlayerSpeed : ℚ := 5 / 2
def FrameDelay : Int := 8

/-- Capacity of `spawnChan` and of `catchChan` (`make(chan _, 10)` in `NewGame`). -/
def ChanCap : Nat := 10

/-! ## Enumerations -/

/-- Go `type GameState int` with its four `iota` constants. -/
inductive GameState where
  | StateMenu
  | StatePlaying
  | StateFishing
  | StateCaught
  deriving DecidableEq, Repr

/-- Go `type BobberState int` with its three `iota` constants. -/
inductive BobberState where
  | BobberFloating
  | BobberBite
  | BobberCaught
  deriving DecidableEq, Repr

/-- Go `type Direction int` with its four `iota` constants. -/
inductive Direction where
  | DirectionDown
  | DirectionUp
  | DirectionLeft
  | DirectionRight
  deriving DecidableEq, Repr

/-- Go `type FishType int`: kept as an integer so that the `default` branches of
the switches over it stay visible. -/
abbrev FishType := Int

def FishCommon : FishType := 0
def FishRare : FishType := 1
def FishEpic : FishType := 2
def FishLegendary : FishType := 3

/-! ## The math library and the keyboard, as parameters -/

/-- The functions of Go package `math` whose values reach the state. -/
structure MathLib where
  Sqrt : ℚ → ℚ
  Cos : ℚ → ℚ
  Sin : ℚ → ℚ
  Atan2 : ℚ → ℚ → ℚ
  Pi : ℚ

/-- What `ebiten.IsKeyPressed` answers during one `Update`: `up` is W or Up,
`down` is S or Down, `left` is A or Left, `right` is D or Right. -/
structure Keys where
  up : Bool
  down : Bool
  left : Bool
  right : Bool
  space : Bool
  keyR : Bool
  deriving DecidableEq, Repr

/-! ## Fish (fish.go) -/

/-- Go `struct Fish`.  The last two fields are not struct fields: they hold the
state of the fish's `Swim` goroutine (its local `changeDirectionCounter`, and
whether the goroutine has been started and has not returned). -/
structure Fish where
  X : ℚ
  Y : ℚ
  vx : ℚ
  vy : ℚ
  frame : Int
  frameCount : Int
  active : Bool
  changeDirectionCounter : Int
  swimming : Bool
  FishType : FishType
  deriving DecidableEq, Repr

/-- Go `NewFish` (fish.go 72-85); `rAngle` and `rSpeed` are its two random draws. -/
def NewFish (m : MathLib) (rAngle rSpeed : ℚ) (x y : ℚ) (fishType : FishType) : Fish :=
  let angle := rAngle * 2 * m.Pi
  let speed := 1 / 2 + rSpeed * 1
  { X := x
    Y := y
    vx := m.Cos angle * speed
    vy := m.Sin angle * speed
    frame := 0
    frameCount := 0
    active := true
    changeDirectionCounter := 0
    swimming := false
    FishType := fishType }

/-- Go `Fish.CheckCollision` (fish.go 190-199): `math.Sqrt(dx*dx+dy*dy) < radius`. -/
def Fish.CheckCollision (f : Fish) (x y radius : ℚ) : Bool :=
  let dx := f.X - x
  let dy := f.Y - y
  decide (0 < radius ∧ dx * dx + dy * dy < radius * radius)

/-- Go `Fish.Stop` (fish.go 202-206). -/
def Fish.Stop (f : Fish) : Fish :=
  { f with active := false }

/-- The random draws one `Swim` tick may consume: the 30% roll, the angle and
speed of a direction change, and the two speed draws of the boundary branch. -/
structure SwimRand where
  rChange : ℚ
  rAngle : ℚ
  rSpeed : ℚ
  rBackX : ℚ
  rBackY : ℚ

/-- One `case <-ticker.C` iteration of Go `Fish.Swim` (fish.go 102-145).  An
inactive fish is left as it is and the goroutine returns (`swimming := false`);
a fish whose goroutine is not running is not touched. -/
def Fish.SwimTick (m : MathLib) (r : SwimRand) (f : Fish) : Fish :=
  if !f.swimming then f
  else if !f.active then { f with swimming := false }
  else
    let X := f.X + f.vx
    let Y := f.Y + f.vy
    let c1 := f.changeDirectionCounter + 1
    let redraw := decide (c1 > 120) && decide (r.rChange < 3 / 10)
    let c2 := if c1 > 120 then 0 else c1
    let angle := r.rAngle * 2 * m.Pi
    let speed := 1 / 2 + r.rSpeed * 1
    let vx1 := if redraw then m.Cos angle * speed else f.vx
    let vy1 := if redraw then m.Sin angle * speed else f.vy
    let dx := X - LakeCenterX
    let dy := Y - LakeCenterY
    let outside := decide ((LakeRadius - 20) * (LakeRadius - 20) < dx * dx + dy * dy)
    let back := m.Atan2 dy dx
    let vx2 := if outside then -(m.Cos back) * (1 / 2 + r.rBackX * 1) else vx1
    let vy2 := if outside then -(m.Sin back) * (1 / 2 + r.rBackY * 1) else vy1
    let fc := f.frameCount + 1
    { f with
      X := X
      Y := Y
      vx := vx2
      vy := vy2
      changeDirectionCounter := c2
      frameCount := if fc ≥ 15 then 0 else fc
      frame := if fc ≥ 15 then Int.tmod (f.frame + 1) 2 else f.frame }

/-! ## Bobber (bobber.go) -/

/-- Go `struct Bobber` without its sprite. -/
structure Bobber where
  X : ℚ
  Y : ℚ
  active : Bool
  state : BobberState
  bobCount : Int
  deriving DecidableEq, Repr

/-- Go `NewBobber` (bobber.go 27-32). -/
def NewBobber : Bobber :=
  { X := 0, Y := 0, active := false, state := BobberState.BobberFloating, bobCount := 0 }

/-- Go `Bobber.Cast` (bobber.go 42-61). -/
def Bobber.Cast (m : MathLib) (b : Bobber) (playerX playerY : ℚ) : Bobber :=
  let dx := LakeCenterX - playerX
  let dy := LakeCenterY - playerY
  let distance0 := m.Sqrt (dx * dx + dy * dy)
  let distance := if distance0 = 0 then 1 else distance0
  let castDistance : ℚ := 70
  { b with
    X := playerX + (dx / distance) * castDistance
    Y := playerY + (dy / distance) * castDistance
    active := true
    state := BobberState.BobberFloating
    bobCount := 0 }

/-- Go `Bobber.Update` (bobber.go 64-69). -/
def Bobber.Update (b : Bobber) : Bobber :=
  if !b.active then b else { b with bobCount := b.bobCount + 1 }

/-- Go `Bobber.SetState` (bobber.go 115-117). -/
def Bobber.SetState (b : Bobber) (state : BobberState) : Bobber :=
  { b with state := state }

/-- Go `Bobber.Reset` (bobber.go 119-123). -/
def Bobber.Reset (b : Bobber) : Bobber :=
  { b with active := false, state := BobberState.BobberFloating, bobCount := 0 }

/-! ## Player (player.go) -/

/-- Go `struct Player` without its images; `fishingFramesLen` is
`len(p.fishingFrames)`, which `LoadSprites` makes 3. -/
structure Player where
  X : ℚ
  Y : ℚ
  direction : Direction
  moving : Bool
  frame : Int
  frameCount : Int
  isFishing : Bool
  fishFrame : Int
  fishFCount : Int
  fishingFramesLen : Int
  deriving DecidableEq, Repr

/-- Go `NewPlayer` (player.go 42-48) followed by a successful `LoadSprites`. -/
def NewPlayer (x y : ℚ) : Player :=
  { X := x
    Y := y
    direction := Direction.DirectionDown
    moving := false
    frame := 0
    frameCount := 0
    isFishing := false
    fishFrame := 0
    fishFCount := 0
    fishingFramesLen := 3 }

/-- Go `Player.isInWater` (player.go 197-201): `math.Sqrt(dx*dx+dy*dy) < LakeRadius-10`. -/
def Player.isInWater (p : Player) : Bool :=
  let dx := p.X - LakeCenterX
  let dy := p.Y - LakeCenterY
  decide (dx * dx + dy * dy < (LakeRadius - 10) * (LakeRadius - 10))

/-- Go `Player.IsNearWater` (player.go 203-208): `LakeRadius-30 <= dist <= LakeRadius+60`. -/
def Player.IsNearWater (p : Player) : Bool :=
  let dx := p.X - LakeCenterX
  let dy := p.Y - LakeCenterY
  let d2 := dx * dx + dy * dy
  decide ((LakeRadius - 30) * (LakeRadius - 30) ≤ d2) &&
    decide (d2 ≤ (LakeRadius + 60) * (LakeRadius + 60))

/-- Go `Player.Cast` (player.go 210-214). -/
def Player.Cast (p : Player) : Player :=
  { p with isFishing := true, fishFrame := 0, fishFCount := 0 }

/-- Go `Player.StopFishing` (player.go 216-220). -/
def Player.StopFishing (p : Player) : Player :=
  { p with isFishing := false, fishFrame := 0, fishFCount := 0 }

/-- The four key tests of `Player.Update` (player.go 101-120). -/
def Player.moveKeys (k : Keys) (p : Player) : Player :=
  let y1 := if k.up then p.Y - PlayerSpeed else p.Y
  let y2 := if k.down then y1 + PlayerSpeed else y1
  let x1 := if k.left then p.X - PlayerSpeed else p.X
  let x2 := if k.right then x1 + PlayerSpeed else x1
  let d1 := if k.up then Direction.DirectionUp else p.direction
  let d2 := if k.down then Direction.DirectionDown else d1
  let d3 := if k.left then Direction.DirectionLeft else d2
  let d4 := if k.right then Direction.DirectionRight else d3
  { p with X := x2, Y := y2, direction := d4, moving := k.up || k.down || k.left || k.right }

/-- The water test of `Player.Update` (player.go 122-126): a move that ends in
the water is undone. -/
def Player.undoInWater (oldX oldY : ℚ) (p : Player) : Player :=
  if p.isInWater then { p with X := oldX, Y := oldY, moving := false } else p

/-- The screen clamp of `Player.Update` (player.go 128-139). -/
def Player.clamp (p : Player) : Player :=
  let x1 := if p.X < 20 then 20 else p.X
  let x2 := if x1 > ScreenWidth - 20 then ScreenWidth - 20 else x1
  let y1 := if p.Y < 20 then 20 else p.Y
  let y2 := if y1 > ScreenHeight - 20 then ScreenHeight - 20 else y1
  { p with X := x2, Y := y2 }

/-- The walking animation of `Player.Update` (player.go 141-149). -/
def Player.animateWalk (p : Player) : Player :=
  if p.moving then
    if p.frameCount + 1 ≥ FrameDelay then
      { p with frameCount := 0, frame := Int.tmod (p.frame + 1) 2 }
    else { p with frameCount := p.frameCount + 1 }
  else { p with frame := 0 }

/-- The fishing animation of `Player.Update` (player.go 151-157). -/
def Player.animateFishing (p : Player) : Player :=
  if p.isFishing then
    if p.fishFCount + 1 ≥ FrameDelay then
      { p with fishFCount := 0, fishFrame := Int.tmod (p.fishFrame + 1) p.fishingFramesLen }
    else { p with fishFCount := p.fishFCount + 1 }
  else p

/-- Go `Player.Update` (player.go 97-158), its five stages in source order. -/
def Player.Update (k : Keys) (p : Player) : Player :=
  Player.animateFishing
    (Player.animateWalk
      (Player.clamp
        (Player.undoInWater p.X p.Y
          (Player.moveKeys k { p with moving := false }))))

/-! ## Game (game.go, spawner.go) -/

/-- Go `struct Game` without its synchronisation handles and images.
`spawnChan` and `catchChan` are the queued items of the two channels.  The last
three fields are history variables, not struct fields: `stopped` collects the
fish objects taken out of `fishes` (their `Swim` goroutines still hold them),
`pendingResets` counts the `resetAfterCatch` goroutines started and not yet run,
and `capturesThisCast` counts the captures since the last `Bobber.Cast`. -/
structure Game where
  state : GameState
  score : Int
  fishCaught : Int
  commonCount : Int
  rareCount : Int
  epicCount : Int
  legendaryCount : Int
  player : Player
  bobber : Bobber
  fishes : List Fish
  spawnChan : List Fish
  catchChan : List FishType
  frameCount : Int
  stopped : List Fish
  pendingResets : Nat
  capturesThisCast : Nat
  deriving DecidableEq, Repr

/-- Go `NewGame` (game.go 76-117) when every asset loads. -/
def NewGame : Game :=
  { state := GameState.StatePlaying
    score := 0
    fishCaught := 0
    commonCount := 0
    rareCount := 0
    epicCount := 0
    legendaryCount := 0
    player := NewPlayer LakeCenterX (LakeCenterY + LakeRadius + 40)
    bobber := NewBobber
    fishes := []
    spawnChan := []
    catchChan := []
    frameCount := 0
    stopped := []
    pendingResets := 0
    capturesThisCast := 0 }

/-- Go `Game.countFishType` (game.go 336-344). -/
def Game.countFishType (g : Game) (fishType : FishType) : Int :=
  g.fishes.foldl (fun count fish => if fish.FishType = fishType then count + 1 else count) 0

/-- Go `Game.getPointsForFish` (game.go 361-374). -/
def Game.getPointsForFish (fishType : FishType) : Int :=
  if fishType = FishCommon then 10
  else if fishType = FishRare then 25
  else if fishType = FishEpic then 50
  else if fishType = FishLegendary then 100
  else 0

/-- Go `Game.canSpawnFish` (spawner.go 58-78). -/
def Game.canSpawnFish (g : Game) (fishType : FishType) : Bool :=
  let count := g.countFishType fishType
  if fishType = FishCommon then decide (count < MaxCommonFish)
  else if fishType = FishRare then decide (count < MaxRareFish)
  else if fishType = FishEpic then decide (count < MaxEpicFish)
  else if fishType = FishLegendary then decide (count < MaxLegendaryFish)
  else false

/-- The random draws of one spawner period: the tier roll, the angle and radius
of `spawnFishOfType`, the angle and speed of `NewFish`. -/
structure SpawnRand where
  roll : ℚ
  rAngle : ℚ
  rRadius : ℚ
  rVAngle : ℚ
  rVSpeed : ℚ

/-- Go `Game.spawnFishOfType` (spawner.go 81-90). -/
def Game.spawnFishOfType (m : MathLib) (r : SpawnRand) (fishType : FishType) : Fish :=
  let angle := r.rAngle * 2 * m.Pi
  let radius := r.rRadius * (LakeRadius - 20)
  let x := LakeCenterX + radius * m.Cos angle
  let y := LakeCenterY + radius * m.Sin angle
  NewFish m r.rVAngle r.rVSpeed x y fishType

/-- Go `Game.randomFishType` (spawner.go 94-113) on the draw `roll`. -/
def Game.randomFishType (roll : ℚ) : FishType :=
  if roll < 60 / 100 then FishCommon
  else if roll < 85 / 100 then FishRare
  else if roll < 97 / 100 then FishEpic
  else FishLegendary

/-- The `case <-ticker.C` branch of Go `Game.fishSpawner` after the tier has been
drawn (spawner.go 38-51): admission check, then non-blocking send. -/
def Game.spawnPeriod (m : MathLib) (r : SpawnRand) (fishType : FishType) (g : Game) : Game :=
  if g.canSpawnFish fishType then
    let fish := Game.spawnFishOfType m r fishType
    if g.spawnChan.length < ChanCap then { g with spawnChan := g.spawnChan ++ [fish] }
    else g
  else g

/-- One `case <-ticker.C` iteration of Go `Game.fishSpawner` (spawner.go 34-51). -/
def Game.fishSpawnerTick (m : MathLib) (r : SpawnRand) (g : Game) : Game :=
  Game.spawnPeriod m r (Game.randomFishType r.roll) g

/-- The body of `case fishType := <-g.catchChan` in Go `Game.catchProcessor`
(spawner.go 127-148), for the received value `fishType`. -/
def Game.catchProcessorHandle (g : Game) (fishType : FishType) : Game :=
  let points := Game.getPointsForFish fishType
  let g := { g with score := g.score + points, fishCaught := g.fishCaught + 1 }
  if fishType = FishCommon then { g with commonCount := g.commonCount + 1 }
  else if fishType = FishRare then { g with rareCount := g.rareCount + 1 }
  else if fishType = FishEpic then { g with epicCount := g.epicCount + 1 }
  else if fishType = FishLegendary then { g with legendaryCount := g.legendaryCount + 1 }
  else g

/-- The loop of Go `Game.catchProcessor` on the events it receives, in receipt order. -/
def Game.catchProcessor (events : List FishType) (g : Game) : Game :=
  events.foldl Game.catchProcessorHandle g

/-- One iteration of Go `Game.catchProcessor` on an open channel: the oldest
queued event is received and handled; on an empty channel the goroutine waits. -/
def Game.catchProcessorTick (g : Game) : Game :=
  match g.catchChan with
  | [] => g
  | fishType :: rest => Game.catchProcessorHandle { g with catchChan := rest } fishType

/-- The scan `for i, fish := range g.fishes` of Go `Game.checkFishCollisions`
up to its `break`: index and fish of the first collision, counting from `i`. -/
def firstCollision (x y : ℚ) : List Fish → Nat → Option (Nat × Fish)
  | [], _ => none
  | fish :: rest, i =>
    if fish.CheckCollision x y 15 then some (i, fish) else firstCollision x y rest (i + 1)

/-- Go `Game.checkFishCollisions` (game.go 269-298). -/
def Game.checkFishCollisions (g : Game) : Game :=
  match firstCollision g.bobber.X g.bobber.Y g.fishes 0 with
  | none => g
  | some (i, fish) =>
    { g with
      bobber := Bobber.SetState { g.bobber with active := false } BobberState.BobberCaught
      catchChan :=
        if g.catchChan.length < ChanCap then g.catchChan ++ [fish.FishType] else g.catchChan
      fishes := g.fishes.take i ++ g.fishes.drop (i + 1)
      stopped := g.stopped ++ [fish.Stop]
      pendingResets := g.pendingResets + 1
      capturesThisCast := g.capturesThisCast + 1 }

/-- The body of Go `Game.resetAfterCatch` after its sleep (game.go 306-310). -/
def Game.resetAfterCatch (g : Game) : Game :=
  { g with
    state := GameState.StatePlaying
    bobber := g.bobber.Reset
    player := g.player.StopFishing
    pendingResets := g.pendingResets - 1 }

/-- The test of Go `Game.cleanupFishes` (game.go 321-325) for keeping a fish. -/
def inCleanupArea (fish : Fish) : Bool :=
  let dx := fish.X - LakeCenterX
  let dy := fish.Y - LakeCenterY
  let distance := dx * dx + dy * dy
  decide (distance < (LakeRadius + 100) * (LakeRadius + 100))

/-- Go `Game.cleanupFishes` (game.go 314-332). -/
def Game.cleanupFishes (g : Game) : Game :=
  { g with
    fishes := g.fishes.filter inCleanupArea
    stopped := g.stopped ++ (g.fishes.filter (fun fish => !inCleanupArea fish)).map Fish.Stop }

/-- The Space branch of Go `Game.handleInput` (game.go 252-258). -/
def Game.handleCast (m : MathLib) (k : Keys) (g : Game) : Game :=
  if k.space && decide (g.state = GameState.StatePlaying) then
    if g.player.IsNearWater then
      { g with
        state := GameState.StateFishing
        player := g.player.Cast
        bobber := g.bobber.Cast m g.player.X g.player.Y
        capturesThisCast := 0 }
    else g
  else g

/-- The R branch of Go `Game.handleInput` (game.go 261-265). -/
def Game.handleReel (k : Keys) (g : Game) : Game :=
  if k.keyR && decide (g.state = GameState.StateFishing) then
    { g with
      state := GameState.StatePlaying
      bobber := g.bobber.Reset
      player := g.player.StopFishing }
  else g

/-- Go `Game.handleInput` (game.go 250-266). -/
def Game.handleInput (m : MathLib) (k : Keys) (g : Game) : Game :=
  Game.handleReel k (Game.handleCast m k g)

/-- The `select` on `spawnChan` of Go `Game.Update` (game.go 143-154): at most one
fish is received, appended to `fishes`, and its `Swim` goroutine is started. -/
def Game.recvSpawn (g : Game) : Game :=
  match g.spawnChan with
  | [] => g
  | fish :: rest =>
    { g with spawnChan := rest, fishes := g.fishes ++ [{ fish with swimming := true }] }

/-- The player step of Go `Game.Update` (game.go 160-162). -/
def Game.updatePlayer (k : Keys) (g : Game) : Game :=
  if g.state = GameState.StatePlaying then { g with player := g.player.Update k } else g

/-- The collision step of Go `Game.Update` (game.go 168-170). -/
def Game.updateCollisions (g : Game) : Game :=
  if g.bobber.active then g.checkFishCollisions else g

/-- The frame counter step of Go `Game.Update` (game.go 140). -/
def Game.tickFrame (g : Game) : Game :=
  { g with frameCount := g.frameCount + 1 }

/-- The bobber step of Go `Game.Update` (game.go 165). -/
def Game.updateBobber (g : Game) : Game :=
  { g with bobber := g.bobber.Update }

/-- Go `Game.Update` (game.go 139-176), its steps in source order. -/
def Game.Update (m : MathLib) (k : Keys) (g : Game) : Game :=
  Game.cleanupFishes
    (Game.updateCollisions
      (Game.updateBobber
        (Game.updatePlayer k
          (Game.handleInput m k
            (Game.recvSpawn
              (Game.tickFrame g))))))

/-! ## Interleavings -/

/-- One atomic step of one goroutine. -/
inductive Event where
  /-- one period of `fishSpawner` -/
  | spawner (r : SpawnRand)
  /-- one call of `Update` on the main loop, with nothing falling inside it -/
  | update (k : Keys)
  /-- one `Swim` tick of the fish at index `i` of `fishes` -/
  | swim (i : Nat) (r : SwimRand)
  /-- one `Swim` tick of the fish at index `i` of `stopped` -/
  | swimStopped (i : Nat) (r : SwimRand)
  /-- `catchProcessor` receives and handles one event -/
  | catchProc
  /-- a sleeping `resetAfterCatch` wakes up and runs -/
  | reset

/-- Apply `fn` to the element at index `i`, if there is one. -/
def updateAt (fn : Fish → Fish) : Nat → List Fish → List Fish
  | _, [] => []
  | 0, fish :: rest => fn fish :: rest
  | i + 1, fish :: rest => fish :: updateAt fn i rest

/-- The effect of one event on the game. -/
def step (m : MathLib) (g : Game) : Event → Game
  | Event.spawner r => g.fishSpawnerTick m r
  | Event.update k => g.Update m k
  | Event.swim i r => { g with fishes := updateAt (Fish.SwimTick m r) i g.fishes }
  | Event.swimStopped i r => { g with stopped := updateAt (Fish.SwimTick m r) i g.stopped }
  | Event.catchProc => g.catchProcessorTick
  | Event.reset => if g.pendingResets = 0 then g else g.resetAfterCatch

/-- The game after the events `evs`, in order. -/
def run (m : MathLib) (g : Game) (evs : List Event) : Game :=
  evs.foldl (step m) g

/-! ## Shutdown (game.go 352-357)

`Cleanup` cancels the context and closes both channels while the goroutines may
still be at their `select`.  The Go semantics used here: a receive from a closed
channel proceeds at once, yielding the queued items first and then the zero
value of the element type; a send on a closed channel panics, also inside a
`select`; when several cases of a `select` are ready one of them is taken at
random. -/

/-- The game together with what `Cleanup` changes and which goroutines live. -/
structure Runtime where
  g : Game
  cancelled : Bool
  spawnClosed : Bool
  catchClosed : Bool
  spawnerLive : Bool
  catchLive : Bool
  panicked : Bool

/-- The running game: both goroutines of `NewGame` alive, nothing closed. -/
def Runtime.start (g : Game) : Runtime :=
  { g := g, cancelled := false, spawnClosed := false, catchClosed := false,
    spawnerLive := true, catchLive := true, panicked := false }

/-- Go `Game.Cleanup` up to `g.wg.Wait()` (game.go 353-355). -/
def Runtime.Cleanup (s : Runtime) : Runtime :=
  { s with cancelled := true, spawnClosed := true, catchClosed := true }

/-- Whether `g.wg.Wait()` of `Cleanup` can return: the spawner, the catch
processor, every started `Swim` goroutine and every `resetAfterCatch` are done. -/
def Runtime.waitReturns (s : Runtime) : Bool :=
  !s.spawnerLive && !s.catchLive && decide (s.g.pendingResets = 0) &&
    s.g.fishes.all (fun f => !f.swimming) && s.g.stopped.all (fun f => !f.swimming)

/-- One iteration of the `select` of Go `Game.catchProcessor` (spawner.go
123-149).  `pickDone` is the random choice when both cases are ready. -/
def Runtime.catchProcessorSelect (pickDone : Bool) (s : Runtime) : Runtime :=
  if !s.catchLive || s.panicked then s
  else
    let doneReady := s.cancelled
    let recvReady := !s.g.catchChan.isEmpty || s.catchClosed
    if recvReady && (!pickDone || !doneReady) then
      match s.g.catchChan with
      | fishType :: rest =>
        { s with g := Game.catchProcessorHandle { s.g with catchChan := rest } fishType }
      -- closed and drained: the receive yields the zero value of `FishType`
      | [] => { s with g := Game.catchProcessorHandle s.g (0 : FishType) }
    else if doneReady then { s with catchLive := false }
    else s

/-- One iteration of the `select` of Go `Game.fishSpawner` (spawner.go 29-52)
at a moment when the ticker has fired.  `pickDone` is the random choice when the
context is cancelled as well. -/
def Runtime.fishSpawnerSelect (m : MathLib) (r : SpawnRand) (pickDone : Bool) (s : Runtime) :
    Runtime :=
  if !s.spawnerLive || s.panicked then s
  else if pickDone && s.cancelled then { s with spawnerLive := false }
  else
    let fishType := Game.randomFishType r.roll
    if s.g.canSpawnFish fishType then
      if s.spawnClosed then { s with panicked := true }
      else { s with g := s.g.spawnPeriod m r fishType }
    else s

/-! ## Scenarios, runs and invariants used by the theorems -/

/-- A fish at rest at `(x, y)`, its `Swim` goroutine running. -/
def fishAt (x y : ℚ) (fishType : FishType) : Fish :=
  { X := x, Y := y, vx := 0, vy := 0, frame := 0, frameCount := 0, active := true,
    changeDirectionCounter := 0, swimming := true, FishType := fishType }

/-- A game in `StateFishing` with the probe floating at `(x, y)` over the fish `fishes`. -/
def sceneWith (x y : ℚ) (fishes : List Fish) : Game :=
  { NewGame with
    state := GameState.StateFishing
    bobber := { X := x, Y := y, active := true, state := BobberState.BobberFloating, bobCount := 0 }
    fishes := fishes }

/-- No key pressed. -/
def noKeys : Keys :=
  { up := false, down := false, left := false, right := false, space := false, keyR := false }

/-- Draws of a spawner period that give a legendary fish at the lake centre. -/
def legendaryDraw : SpawnRand :=
  { roll := 99 / 100, rAngle := 0, rRadius := 0, rVAngle := 0, rVSpeed := 0 }

/-- Two spawner periods before the main loop runs twice. -/
def overshootTrace : List Event :=
  [Event.spawner legendaryDraw, Event.spawner legendaryDraw,
   Event.update noKeys, Event.update noKeys]

/-- The tiers with their caps, as `canSpawnFish` pairs them. -/
def tierCaps : List (FishType × Int) :=
  [(FishCommon, MaxCommonFish), (FishRare, MaxRareFish), (FishEpic, MaxEpicFish),
   (FishLegendary, MaxLegendaryFish)]

/-- A stand-in for package `math`, for evaluating examples whose outcome does
not depend on it. -/
def flatMath : MathLib :=
  { Sqrt := fun _ => 1, Cos := fun _ => 1, Sin := fun _ => 0, Atan2 := fun _ _ => 0, Pi := 22 / 7 }

/-- Ten common fish at the lake centre, nothing queued. -/
def tenCommon : Game :=
  { NewGame with fishes := List.replicate 10 (fishAt 320 240 FishCommon) }

/-- One collision check in the surroundings `env`: the fish list and the probe
as they are at that moment; the counters and both queues are those of `g`. -/
def captureIn (g : Game) (env : List Fish × Bobber) : Game :=
  Game.checkFishCollisions { g with fishes := env.1, bobber := env.2 }

/-- Collision checks in a row with no event consumed in between. -/
def captureRun (envs : List (List Fish × Bobber)) (g : Game) : Game :=
  envs.foldl captureIn g

/-- A game whose capture queue holds ten common events. -/
def saturated : Game :=
  { sceneWith 100 100 [fishAt 105 100 FishRare] with catchChan := List.replicate 10 FishCommon }

/-- Eleven hits in a row: each time the probe floats at (100,100) over one fish
at (105,100). -/
def elevenHits : List (List Fish × Bobber) :=
  List.replicate 11 ((sceneWith 100 100 [fishAt 105 100 FishRare]).fishes,
    (sceneWith 100 100 [fishAt 105 100 FishRare]).bobber)

/-- The invariant behind the cast cycle: at most one capture since the last
cast; an active probe has captured nothing, floats, and the game is in
`StateFishing`; a caught probe has captured once and the game is still in
`StateFishing`. -/
def CastInv (g : Game) : Prop :=
  g.capturesThisCast ≤ 1 ∧
  (g.bobber.active = true →
    g.capturesThisCast = 0 ∧ g.state = GameState.StateFishing ∧
    g.bobber.state = BobberState.BobberFloating) ∧
  (g.bobber.state = BobberState.BobberCaught →
    g.capturesThisCast = 1 ∧ g.state = GameState.StateFishing) ∧
  g.bobber.state ≠ BobberState.BobberBite

/-- A stand-in for package `math` that is right on the inputs of the example
below: the player stands 220 below the lake centre and the spawn angle is a
quarter turn. -/
def southMath : MathLib :=
  { Sqrt := fun _ => 220, Cos := fun _ => 0, Sin := fun _ => 1, Atan2 := fun _ _ => 0,
    Pi := 22 / 7 }

/-- Draws of a spawner period that give a common fish 150 below the lake centre. -/
def commonDraw : SpawnRand :=
  { roll := 0, rAngle := 1 / 4, rRadius := 15 / 16, rVAngle := 1 / 4, rVSpeed := 0 }

/-- Only Space pressed. -/
def spaceKey : Keys :=
  { up := false, down := false, left := false, right := false, space := true, keyR := false }

/-- A fish is spawned and registered, then the player casts onto it. -/
def captureTrace : List Event :=
  [Event.spawner commonDraw, Event.update noKeys, Event.update spaceKey]

/-- A game with one freshly built fish waiting on the spawn queue. -/
def oneQueued : Game :=
  { NewGame with spawnChan := [NewFish flatMath 0 0 320 240 FishCommon] }

/-- Only Up pressed. -/
def upKey : Keys :=
  { up := true, down := false, left := false, right := false, space := false, keyR := false }

/-- The player after the key inputs `ks`, one `Player.Update` each. -/
def walk (ks : List Keys) (p : Player) : Player :=
  ks.foldl (fun q k => q.Update k) p

/-- The player is on the shore: at distance at least `LakeRadius - 10` from
the lake centre and inside the screen box `[20, 620] x [20, 460]`. -/
def Ashore (p : Player) : Prop :=
  (LakeRadius - 10) * (LakeRadius - 10)
      ≤ (p.X - LakeCenterX) * (p.X - LakeCenterX) + (p.Y - LakeCenterY) * (p.Y - LakeCenterY) ∧
  20 ≤ p.X ∧ p.X ≤ ScreenWidth - 20 ∧ 20 ≤ p.Y ∧ p.Y ≤ ScreenHeight - 20

/-- A stand-in for package `math` that is right on the inputs of the steering
example: at the offset (120, 160) from the lake centre the distance is 200, and
the cosine and sine of `Atan2 160 120` are 3/5 and 4/5. -/
def pythMath : MathLib :=
  { Sqrt := fun _ => 200, Cos := fun _ => 3 / 5, Sin := fun _ => 4 / 5, Atan2 := fun _ _ => 0,
    Pi := 22 / 7 }

/-- Draws of a `Swim` tick whose two boundary speed draws differ: 0 and 1/2. -/
def unevenDraws : SwimRand :=
  { rChange := 0, rAngle := 0, rSpeed := 0, rBackX := 0, rBackY := 1 / 2 }

/-- Only R pressed. -/
def rKey : Keys :=
  { up := false, down := false, left := false, right := false, space := false, keyR := true }

/-- A capture, then a reel, then a new cast, all before the delayed reset of the
capture has run. -/
def recastTrace : List Event :=
  captureTrace ++ [Event.update rKey, Event.update spaceKey]

/-- The game as a reel leaves it: `StatePlaying`, the probe reset, the player
not fishing. -/
def Reeled (g : Game) : Prop :=
  g.state = GameState.StatePlaying ∧
  g.bobber.active = false ∧ g.bobber.state = BobberState.BobberFloating ∧
  g.bobber.bobCount = 0 ∧
  g.player.isFishing = false ∧ g.player.fishFrame = 0 ∧ g.player.fishFCount = 0

/-! ## Interleavings inside `Update`

`Update` holds `g.mu` only inside the append of a received fish, inside
`checkFishCollisions` and inside `cleanupFishes`; `handleInput`, the player and
bobber steps and the test `if g.bobber.active` run without it, so the statements
of a `resetAfterCatch` goroutine can fall between them.  Here every statement of
`Update` is one step of the main loop and the three statements of
`resetAfterCatch` are three steps under `g.mu`.  Splitting a statement further
into its field writes adds no value of `g.state`, `bobber.active`,
`bobber.state` or the capture counter: each of them is written by single
assignments. -/

/-- The guard of the Space branch of Go `Game.handleInput` (game.go 252-253):
with these keys the tick casts. -/
def Game.castsOn (k : Keys) (g : Game) : Bool :=
  k.space && decide (g.state = GameState.StatePlaying) && g.player.IsNearWater

/-- Where the main loop stands inside `Update`: the statement it runs next. -/
inductive MainPc where
  /-- `g.frameCount++` and the receive of the `select` (game.go 140-144) -/
  | idle
  /-- the append under `g.mu` and `go fish.Swim` (145-151) -/
  | register
  /-- the Space test with `IsNearWater` (252-253) -/
  | inputSpace
  /-- `g.state = StateFishing` (254) -/
  | castState
  /-- `g.player.Cast()` (255) -/
  | castPlayer
  /-- `g.bobber.Cast(...)` (256) -/
  | castBobber
  /-- the R test (261) -/
  | reelTest
  /-- `g.state = StatePlaying` (262) -/
  | reelState
  /-- `g.bobber.Reset()` (263) -/
  | reelBobber
  /-- `g.player.StopFishing()` (264) -/
  | reelPlayer
  /-- `if g.state == StatePlaying { g.player.Update() }` (160-162) -/
  | playerStep
  /-- `g.bobber.Update()` (165) -/
  | bobberStep
  /-- the test `if g.bobber.active` (168) -/
  | activeTest
  /-- `g.checkFishCollisions()` (169), under `g.mu` -/
  | collide
  /-- `g.cleanupFishes()` (173), under `g.mu` -/
  | cleanup
  deriving DecidableEq, Repr

/-- Where the `resetAfterCatch` goroutine that holds `g.mu` stands. -/
inductive ResetPc where
  /-- no reset holds `g.mu` -/
  | free
  /-- after `g.state = StatePlaying` (game.go 307) -/
  | afterState
  /-- after `g.bobber.Reset()` (308) -/
  | afterBobber
  deriving DecidableEq, Repr

/-- The game with the position of the main loop inside `Update`, the outcome of
the tests it has already made in this `Update` (`castLatch`, `reelLatch`,
`collideLatch`), the fish it has received and not yet registered, and the
position of the reset that holds `g.mu`. -/
structure Fine where
  g : Game
  pc : MainPc
  recvFish : Option Fish
  castLatch : Bool
  reelLatch : Bool
  collideLatch : Bool
  resetPc : ResetPc

/-- The game of `NewGame` before the first `Update`. -/
def Fine.init : Fine :=
  { g := NewGame, pc := MainPc.idle, recvFish := none, castLatch := false, reelLatch := false,
    collideLatch := false, resetPc := ResetPc.free }

/-- The next statement of `Update` on the main loop, with keys `k`.  A statement
that needs `g.mu` waits (the state is unchanged) while a reset holds it; a
statement inside a branch whose test failed is skipped. -/
def mainStep (m : MathLib) (k : Keys) (s : Fine) : Fine :=
  match s.pc with
  | MainPc.idle =>
    match s.g.spawnChan with
    | [] => { s with g := s.g.tickFrame, recvFish := none, pc := MainPc.register }
    | fish :: rest =>
      { s with g := { s.g.tickFrame with spawnChan := rest }, recvFish := some fish,
               pc := MainPc.register }
  | MainPc.register =>
    match s.recvFish with
    | none => { s with pc := MainPc.inputSpace }
    | some fish =>
      if s.resetPc = ResetPc.free then
        { s with g := { s.g with fishes := s.g.fishes ++ [{ fish with swimming := true }] },
                 recvFish := none, pc := MainPc.inputSpace }
      else s
  | MainPc.inputSpace => { s with castLatch := s.g.castsOn k, pc := MainPc.castState }
  | MainPc.castState =>
    { s with g := if s.castLatch then { s.g with state := GameState.StateFishing } else s.g,
             pc := MainPc.castPlayer }
  | MainPc.castPlayer =>
    { s with g := if s.castLatch then { s.g with player := s.g.player.Cast } else s.g,
             pc := MainPc.castBobber }
  | MainPc.castBobber =>
    { s with g := if s.castLatch then
                    { s.g with bobber := s.g.bobber.Cast m s.g.player.X s.g.player.Y,
                               capturesThisCast := 0 }
                  else s.g,
             pc := MainPc.reelTest }
  | MainPc.reelTest =>
    { s with reelLatch := k.keyR && decide (s.g.state = GameState.StateFishing),
             pc := MainPc.reelState }
  | MainPc.reelState =>
    { s with g := if s.reelLatch then { s.g with state := GameState.StatePlaying } else s.g,
             pc := MainPc.reelBobber }
  | MainPc.reelBobber =>
    { s with g := if s.reelLatch then { s.g with bobber := s.g.bobber.Reset } else s.g,
             pc := MainPc.reelPlayer }
  | MainPc.reelPlayer =>
    { s with g := if s.reelLatch then { s.g with player := s.g.player.StopFishing } else s.g,
             pc := MainPc.playerStep }
  | MainPc.playerStep => { s with g := s.g.updatePlayer k, pc := MainPc.bobberStep }
  | MainPc.bobberStep => { s with g := s.g.updateBobber, pc := MainPc.activeTest }
  | MainPc.activeTest => { s with collideLatch := s.g.bobber.active, pc := MainPc.collide }
  | MainPc.collide =>
    if s.collideLatch then
      if s.resetPc = ResetPc.free then { s with g := s.g.checkFishCollisions, pc := MainPc.cleanup }
      else s
    else { s with pc := MainPc.cleanup }
  | MainPc.cleanup =>
    if s.resetPc = ResetPc.free then { s with g := s.g.cleanupFishes, pc := MainPc.idle }
    else s

/-- The next statement of a `resetAfterCatch` goroutine after its sleep (game.go
306-310): it takes `g.mu` when one is pending and no other reset holds it. -/
def resetStep (s : Fine) : Fine :=
  match s.resetPc with
  | ResetPc.free =>
    if s.g.pendingResets = 0 then s
    else { s with g := { s.g with state := GameState.StatePlaying },
                  resetPc := ResetPc.afterState }
  | ResetPc.afterState =>
    { s with g := { s.g with bobber := s.g.bobber.Reset }, resetPc := ResetPc.afterBobber }
  | ResetPc.afterBobber =>
    { s with g := { s.g with player := s.g.player.StopFishing,
                             pendingResets := s.g.pendingResets - 1 },
             resetPc := ResetPc.free }

/-- A step of another goroutine: a spawner period and a `catchProcessor`
iteration need `g.mu` and wait while a reset holds it; a `Swim` tick does not. -/
def otherStep (m : MathLib) (s : Fine) : Event → Fine
  | Event.spawner r =>
    if s.resetPc = ResetPc.free then { s with g := s.g.fishSpawnerTick m r } else s
  | Event.catchProc =>
    if s.resetPc = ResetPc.free then { s with g := s.g.catchProcessorTick } else s
  | Event.swim i r => { s with g := step m s.g (Event.swim i r) }
  | Event.swimStopped i r => { s with g := step m s.g (Event.swimStopped i r) }
  | Event.update _ => s
  | Event.reset => s

/-- One step of one goroutine, at the grain of statements. -/
inductive FineEvent where
  /-- the main loop runs its next statement of `Update`; `k` is the keyboard -/
  | main (k : Keys)
  /-- a `resetAfterCatch` goroutine runs its next statement -/
  | reset
  /-- a spawner period, a `Swim` tick or a `catchProcessor` iteration -/
  | other (e : Event)

/-- The effect of one statement-grain step. -/
def fineStep (m : MathLib) (s : Fine) : FineEvent → Fine
  | FineEvent.main k => mainStep m k s
  | FineEvent.reset => resetStep s
  | FineEvent.other e => otherStep m s e

/-- The state after the statement-grain steps `evs`, in order. -/
def fineRun (m : MathLib) (s : Fine) (evs : List FineEvent) : Fine :=
  evs.foldl (fineStep m) s

/-- The fifteen statements of one `Update` with keys `k`, nothing in between. -/
def wholeUpdate (k : Keys) : List FineEvent :=
  List.replicate 15 (FineEvent.main k)

/-- No cast is made along the events `evs` from the game `g`: no tick among
them passes the guard of the Space branch. -/
def NoCast (m : MathLib) : Game → List Event → Prop
  | _, [] => True
  | g, e :: rest => (∀ k, e = Event.update k → g.castsOn k = false) ∧ NoCast m (step m g e) rest

/-- A reeled game at the grain of statements: the game is as a reel leaves it,
the main loop is not inside the Space branch, and no collision check whose test
has passed is still to run. -/
def FineReeled (s : Fine) : Prop :=
  Reeled s.g ∧
  (s.castLatch = true →
    s.pc ≠ MainPc.castState ∧ s.pc ≠ MainPc.castPlayer ∧ s.pc ≠ MainPc.castBobber) ∧
  (s.collideLatch = true → s.pc ≠ MainPc.collide)

/-- No cast is made along the statement-grain steps `evs` from `s`: whenever the
main loop runs the Space test, the guard fails. -/
def NoCastFine (m : MathLib) : Fine → List FineEvent → Prop
  | _, [] => True
  | s, e :: rest =>
    (∀ k, e = FineEvent.main k → s.pc = MainPc.inputSpace → s.g.castsOn k = false) ∧
    NoCastFine m (fineStep m s e) rest

/-! ## Score accounting -/

theorem catchProcessorHandle_fields (g : Game) (t : FishType) :
    (g.catchProcessorHandle t).score = g.score + Game.getPointsForFish t ∧
    (g.catchProcessorHandle t).fishCaught = g.fishCaught + 1 ∧
    (g.catchProcessorHandle t).commonCount = g.commonCount + (if t = FishCommon then 1 else 0) ∧
    (g.catchProcessorHandle t).rareCount = g.rareCount + (if t = FishRare then 1 else 0) ∧
    (g.catchProcessorHandle t).epicCount = g.epicCount + (if t = FishEpic then 1 else 0) ∧
    (g.catchProcessorHandle t).legendaryCount
      = g.legendaryCount + (if t = FishLegendary then 1 else 0) ∧
    (g.catchProcessorHandle t).fishes = g.fishes := by
  unfold Game.catchProcessorHandle
  by_cases h0 : t = FishCommon
  · subst h0; simp [FishCommon, FishRare, FishEpic, FishLegendary]
  · by_cases h1 : t = FishRare
    · subst h1; simp [FishCommon, FishRare, FishEpic, FishLegendary]
    · by_cases h2 : t = FishEpic
      · subst h2; simp [FishCommon, FishRare, FishEpic, FishLegendary]
      · by_cases h3 : t = FishLegendary
        · subst h3; simp [FishCommon, FishRare, FishEpic, FishLegendary]
        · simp [h0, h1, h2, h3]

/-- C1. Score consistency: after `catchProcessor` has handled the events `events`
one by one in receipt order, the score is the initial score plus the sum of
`getPointsForFish` over the events (common 10, rare 25, epic 50, legendary 100),
`fishCaught` has grown by the number of events, each per-tier counter has grown
by the number of events of that tier, and the fish list is the same. -/
theorem catchProcessor_score_consistency (events : List FishType) (g : Game) :
    (Game.catchProcessor events g).score
        = g.score + (events.map Game.getPointsForFish).sum ∧
    (Game.catchProcessor events g).fishCaught = g.fishCaught + events.length ∧
    (Game.catchProcessor events g).commonCount = g.commonCount + events.count FishCommon ∧
    (Game.catchProcessor events g).rareCount = g.rareCount + events.count FishRare ∧
    (Game.catchProcessor events g).epicCount = g.epicCount + events.count FishEpic ∧
    (Game.catchProcessor events g).legendaryCount
        = g.legendaryCount + events.count FishLegendary ∧
    (Game.catchProcessor events g).fishes = g.fishes ∧
    Game.getPointsForFish FishCommon = 10 ∧ Game.getPointsForFish FishRare = 25 ∧
    Game.getPointsForFish FishEpic = 50 ∧ Game.getPointsForFish FishLegendary = 100 := by
  refine ⟨?_, ?_, ?_, ?_, ?_, ?_, ?_, by decide, by decide, by decide, by decide⟩ <;>
  · induction events generalizing g with
    | nil => simp [Game.catchProcessor]
    | cons t rest ih =>
      have hstep := catchProcessorHandle_fields g t
      have ih2 := ih (g.catchProcessorHandle t)
      simp only [Game.catchProcessor, List.foldl_cons] at ih2 ⊢
      rw [ih2]
      simp only [hstep.1, hstep.2.1, hstep.2.2.1, hstep.2.2.2.1, hstep.2.2.2.2.1,
        hstep.2.2.2.2.2.1, hstep.2.2.2.2.2.2, List.map_cons, List.sum_cons, List.length_cons,
        List.count_cons, Nat.cast_add, Nat.cast_ite, Nat.cast_one, Nat.cast_zero, beq_iff_eq]
      try first
        | ring
        | omega

/-! ## Collision detection -/

/-- The exact reading of `math.Sqrt(s) < r` used by the embedding. -/
theorem sqrt_lt_iff_sq_lt (s r : ℚ) (hs : 0 ≤ s) :
    (0 < r ∧ s < r * r) ↔ Real.sqrt (s : ℝ) < (r : ℝ) := by
  have hs2 : (0 : ℝ) ≤ (s : ℝ) := by exact_mod_cast hs
  constructor
  · rintro ⟨hr, hlt⟩
    have hr2 : (0 : ℝ) < (r : ℝ) := by exact_mod_cast hr
    rw [Real.sqrt_lt' hr2]
    have : (s : ℝ) < (r : ℝ) * (r : ℝ) := by exact_mod_cast hlt
    nlinarith
  · intro h
    have hr2 : (0 : ℝ) < (r : ℝ) := lt_of_le_of_lt (Real.sqrt_nonneg _) h
    rw [Real.sqrt_lt' hr2] at h
    refine ⟨by exact_mod_cast hr2, ?_⟩
    have : (s : ℝ) < (r : ℝ) * (r : ℝ) := by nlinarith
    exact_mod_cast this

theorem CheckCollision_iff_distance (f : Fish) (x y r : ℚ) :
    f.CheckCollision x y r = true ↔
      Real.sqrt (((f.X - x) * (f.X - x) + (f.Y - y) * (f.Y - y) : ℚ) : ℝ) < (r : ℝ) := by
  rw [← sqrt_lt_iff_sq_lt _ _ (by nlinarith [mul_self_nonneg (f.X - x), mul_self_nonneg (f.Y - y)])]
  simp [Fish.CheckCollision]

theorem firstCollision_none (x y : ℚ) (l : List Fish) (o : Nat)
    (h : ∀ f ∈ l, f.CheckCollision x y 15 = false) : firstCollision x y l o = none := by
  induction l generalizing o with
  | nil => rfl
  | cons a rest ih =>
    have ha : a.CheckCollision x y 15 = false := h a (List.mem_cons_self _ _)
    simp only [firstCollision, ha, Bool.false_eq_true, if_false]
    exact ih (o + 1) (fun f hf => h f (List.mem_cons_of_mem _ hf))

theorem firstCollision_first (x y : ℚ) (l : List Fish) (o i : Nat) (f : Fish)
    (hi : l[i]? = some f) (hit : f.CheckCollision x y 15 = true)
    (hfirst : ∀ (j : Nat) (f2 : Fish), j < i → l[j]? = some f2 → f2.CheckCollision x y 15 = false) :
    firstCollision x y l o = some (o + i, f) := by
  induction l generalizing o i with
  | nil => simp at hi
  | cons a rest ih =>
    cases i with
    | zero =>
      simp only [List.getElem?_cons_zero, Option.some.injEq] at hi
      subst hi
      simp [firstCollision, hit]
    | succ k =>
      have ha : a.CheckCollision x y 15 = false := hfirst 0 a (Nat.succ_pos k) (by simp)
      simp only [List.getElem?_cons_succ] at hi
      simp only [firstCollision, ha, Bool.false_eq_true, if_false]
      rw [ih (o + 1) k hi (fun j f2 hj hf2 => hfirst (j + 1) f2 (Nat.succ_lt_succ hj) (by simpa using hf2))]
      congr 2
      omega

theorem exists_first_collision (x y : ℚ) (l : List Fish)
    (h : ∃ f ∈ l, f.CheckCollision x y 15 = true) :
    ∃ (i : Nat) (f : Fish), l[i]? = some f ∧ f.CheckCollision x y 15 = true ∧
      ∀ (j : Nat) (f2 : Fish), j < i → l[j]? = some f2 → f2.CheckCollision x y 15 = false := by
  induction l with
  | nil => simp at h
  | cons a rest ih =>
    by_cases ha : a.CheckCollision x y 15 = true
    · exact ⟨0, a, by simp, ha, fun j f2 hj _ => absurd hj (Nat.not_lt_zero j)⟩
    · obtain ⟨f, hf, hfc⟩ := h
      have hrest : ∃ f ∈ rest, f.CheckCollision x y 15 = true := by
        rcases List.mem_cons.mp hf with rfl | hf2
        · exact absurd hfc ha
        · exact ⟨f, hf2, hfc⟩
      obtain ⟨i, f1, hi, hit, hfirst⟩ := ih hrest
      refine ⟨i + 1, f1, by simpa using hi, hit, ?_⟩
      intro j f2 hj hj2
      cases j with
      | zero =>
        simp only [List.getElem?_cons_zero, Option.some.injEq] at hj2
        subst hj2
        simpa using ha
      | succ k => exact hfirst k f2 (Nat.lt_of_succ_lt_succ hj) (by simpa using hj2)

/-- What a hit at the first colliding index `i` does to the state. -/
theorem checkFishCollisions_hit (g : Game) (i : Nat) (f : Fish)
    (hi : g.fishes[i]? = some f) (hit : f.CheckCollision g.bobber.X g.bobber.Y 15 = true)
    (hfirst : ∀ (j : Nat) (f2 : Fish), j < i → g.fishes[j]? = some f2 →
      f2.CheckCollision g.bobber.X g.bobber.Y 15 = false) :
    g.checkFishCollisions =
      { g with
        bobber := Bobber.SetState { g.bobber with active := false } BobberState.BobberCaught
        catchChan :=
          if g.catchChan.length < ChanCap then g.catchChan ++ [f.FishType] else g.catchChan
        fishes := g.fishes.take i ++ g.fishes.drop (i + 1)
        stopped := g.stopped ++ [f.Stop]
        pendingResets := g.pendingResets + 1
        capturesThisCast := g.capturesThisCast + 1 } := by
  have h := firstCollision_first g.bobber.X g.bobber.Y g.fishes 0 i f hi hit hfirst
  simp only [Nat.zero_add] at h
  simp only [Game.checkFishCollisions, h]

theorem checkFishCollisions_miss (g : Game)
    (h : ∀ f ∈ g.fishes, f.CheckCollision g.bobber.X g.bobber.Y 15 = false) :
    g.checkFishCollisions = g := by
  simp only [Game.checkFishCollisions, firstCollision_none _ _ _ 0 h]

/-- What any hit does: one index is deleted, the probe ends inactive and caught. -/
theorem checkFishCollisions_hit_effect (g : Game)
    (h : ∃ f ∈ g.fishes, f.CheckCollision g.bobber.X g.bobber.Y 15 = true) :
    (∃ i, i < g.fishes.length ∧ g.checkFishCollisions.fishes = g.fishes.eraseIdx i) ∧
    g.checkFishCollisions.fishes.length + 1 = g.fishes.length ∧
    g.checkFishCollisions.bobber.active = false ∧
    g.checkFishCollisions.bobber.state = BobberState.BobberCaught ∧
    (g.checkFishCollisions.catchChan = g.catchChan ∨
      ∃ t, g.checkFishCollisions.catchChan = g.catchChan ++ [t]) := by
  obtain ⟨i, f, hi, hit, hfirst⟩ := exists_first_collision _ _ _ h
  have hlt : i < g.fishes.length := by
    rcases List.getElem?_eq_some.mp hi with ⟨hlt, _⟩
    exact hlt
  rw [checkFishCollisions_hit g i f hi hit hfirst]
  refine ⟨⟨i, hlt, (List.eraseIdx_eq_take_drop_succ _ _).symm⟩, ?_, rfl, rfl, ?_⟩
  · show (g.fishes.take i ++ g.fishes.drop (i + 1)).length + 1 = g.fishes.length
    rw [← List.eraseIdx_eq_take_drop_succ, List.length_eraseIdx_of_lt hlt]
    omega
  · show (if g.catchChan.length < ChanCap then g.catchChan ++ [f.FishType] else g.catchChan)
        = g.catchChan ∨ ∃ t, (if g.catchChan.length < ChanCap then g.catchChan ++ [f.FishType]
          else g.catchChan) = g.catchChan ++ [t]
    by_cases hc : g.catchChan.length < ChanCap
    · right; exact ⟨f.FishType, by simp [hc]⟩
    · left; simp [hc]

/-- C2. At most one capture per collision check: when some fish is at Euclidean
distance below 15 from the probe, one call of `checkFishCollisions` deletes
exactly one index of the fish list (however many fish are in range), leaves the
probe inactive in state `BobberCaught`, and enqueues at most one event; when no
fish is in range the state is unchanged.  The test used by the code is the
Euclidean distance test. -/
theorem checkFishCollisions_one_capture (g : Game) :
    ((∃ f ∈ g.fishes, f.CheckCollision g.bobber.X g.bobber.Y 15 = true) →
      (∃ i, i < g.fishes.length ∧ g.checkFishCollisions.fishes = g.fishes.eraseIdx i) ∧
      g.checkFishCollisions.fishes.length + 1 = g.fishes.length ∧
      g.checkFishCollisions.bobber.active = false ∧
      g.checkFishCollisions.bobber.state = BobberState.BobberCaught ∧
      (g.checkFishCollisions.catchChan = g.catchChan ∨
        ∃ t, g.checkFishCollisions.catchChan = g.catchChan ++ [t])) ∧
    ((∀ f ∈ g.fishes, f.CheckCollision g.bobber.X g.bobber.Y 15 = false) →
      g.checkFishCollisions = g) ∧
    (∀ f : Fish, f.CheckCollision g.bobber.X g.bobber.Y 15 = true ↔
      Real.sqrt (((f.X - g.bobber.X) * (f.X - g.bobber.X)
        + (f.Y - g.bobber.Y) * (f.Y - g.bobber.Y) : ℚ) : ℝ) < 15) := by
  refine ⟨checkFishCollisions_hit_effect g, checkFishCollisions_miss g, ?_⟩
  · intro f
    have h := CheckCollision_iff_distance f g.bobber.X g.bobber.Y 15
    simpa using h

/-- C2 at the scenario of the specification: probe at (100,100), one fish at
(105,100); the fish is removed and the probe is caught. -/
theorem checkFishCollisions_one_capture_witness :
    (∃ f ∈ (sceneWith 100 100 [fishAt 105 100 FishCommon]).fishes,
      f.CheckCollision (sceneWith 100 100 [fishAt 105 100 FishCommon]).bobber.X
        (sceneWith 100 100 [fishAt 105 100 FishCommon]).bobber.Y 15 = true) ∧
    (sceneWith 100 100 [fishAt 105 100 FishCommon]).checkFishCollisions.fishes = [] ∧
    (sceneWith 100 100 [fishAt 105 100 FishCommon]).checkFishCollisions.bobber.active = false ∧
    (sceneWith 100 100 [fishAt 105 100 FishCommon]).checkFishCollisions.bobber.state
      = BobberState.BobberCaught := by
  have hin : ∃ f ∈ (sceneWith 100 100 [fishAt 105 100 FishCommon]).fishes,
      f.CheckCollision (sceneWith 100 100 [fishAt 105 100 FishCommon]).bobber.X
        (sceneWith 100 100 [fishAt 105 100 FishCommon]).bobber.Y 15 = true :=
    ⟨fishAt 105 100 FishCommon, by simp [sceneWith],
      by norm_num [Fish.CheckCollision, sceneWith, fishAt]⟩
  have h := (checkFishCollisions_one_capture (sceneWith 100 100 [fishAt 105 100 FishCommon])).1 hin
  refine ⟨hin, ?_, h.2.2.1, h.2.2.2.1⟩
  have hlen := h.2.1
  have h1 : (sceneWith 100 100 [fishAt 105 100 FishCommon]).fishes.length = 1 := rfl
  rw [h1] at hlen
  exact List.length_eq_zero.mp (by omega)

/-- C3. First-match policy: if the fish `f` at index `i` is within distance 15
of the probe and no fish at a lower index is, `checkFishCollisions` removes
exactly index `i` (the other fish keep their relative order), stops `f`, and the
event it enqueues (when the queue has room) carries the tier of `f`. -/
theorem checkFishCollisions_first_match (g : Game) (i : Nat) (f : Fish)
    (hi : g.fishes[i]? = some f) (hit : f.CheckCollision g.bobber.X g.bobber.Y 15 = true)
    (hfirst : ∀ (j : Nat) (f2 : Fish), j < i → g.fishes[j]? = some f2 →
      f2.CheckCollision g.bobber.X g.bobber.Y 15 = false) :
    g.checkFishCollisions.fishes = g.fishes.eraseIdx i ∧
    (∀ k, k < i → g.checkFishCollisions.fishes[k]? = g.fishes[k]?) ∧
    (∀ k, i ≤ k → g.checkFishCollisions.fishes[k]? = g.fishes[k + 1]?) ∧
    g.checkFishCollisions.stopped = g.stopped ++ [f.Stop] ∧
    (g.catchChan.length < 10 →
      g.checkFishCollisions.catchChan = g.catchChan ++ [f.FishType]) ∧
    (¬ g.catchChan.length < 10 → g.checkFishCollisions.catchChan = g.catchChan) := by
  have hfish : g.checkFishCollisions.fishes = g.fishes.eraseIdx i := by
    rw [checkFishCollisions_hit g i f hi hit hfirst]
    exact (List.eraseIdx_eq_take_drop_succ _ _).symm
  refine ⟨hfish, ?_, ?_, ?_, ?_, ?_⟩
  · intro k hk
    rw [hfish, List.getElem?_eraseIdx_of_lt _ _ _ hk]
  · intro k hk
    rw [hfish, List.getElem?_eraseIdx_of_ge _ _ _ hk]
  · rw [checkFishCollisions_hit g i f hi hit hfirst]
  · intro hc
    rw [checkFishCollisions_hit g i f hi hit hfirst]
    exact if_pos hc
  · intro hc
    rw [checkFishCollisions_hit g i f hi hit hfirst]
    exact if_neg hc

/-- C3 where the nearest fish is not the first: the rare fish at distance 1 sits
at index 2, the common fish at distance 10 at index 1, index 0 is out of range;
the common fish is taken. -/
theorem checkFishCollisions_first_match_witness :
    (sceneWith 100 100
      [fishAt 200 100 FishEpic, fishAt 110 100 FishCommon, fishAt 101 100 FishRare]
      ).checkFishCollisions.fishes = [fishAt 200 100 FishEpic, fishAt 101 100 FishRare] ∧
    (sceneWith 100 100
      [fishAt 200 100 FishEpic, fishAt 110 100 FishCommon, fishAt 101 100 FishRare]
      ).checkFishCollisions.catchChan = [FishCommon] := by
  have h := checkFishCollisions_first_match
    (sceneWith 100 100
      [fishAt 200 100 FishEpic, fishAt 110 100 FishCommon, fishAt 101 100 FishRare])
    1 (fishAt 110 100 FishCommon) rfl
    (by norm_num [Fish.CheckCollision, sceneWith, fishAt])
    (by
      intro j f2 hj hf2
      have hj0 : j = 0 := by omega
      subst hj0
      simp only [sceneWith, List.getElem?_cons_zero, Option.some.injEq] at hf2
      subst hf2
      norm_num [Fish.CheckCollision, sceneWith, fishAt])
  exact ⟨h.1, h.2.2.2.2.1 (by simp [sceneWith, NewGame])⟩

/-! ## Population caps -/

theorem randomFishType_legendaryDraw : Game.randomFishType legendaryDraw.roll = FishLegendary := by
  norm_num [Game.randomFishType, legendaryDraw]

theorem player_idle : (NewPlayer LakeCenterX (LakeCenterY + LakeRadius + 40)).Update noKeys
    = NewPlayer LakeCenterX (LakeCenterY + LakeRadius + 40) := by
  norm_num [Player.Update, Player.animateFishing, Player.animateWalk, Player.clamp,
    Player.undoInWater, Player.moveKeys, Player.isInWater, noKeys, NewPlayer, LakeCenterX,
    LakeCenterY, LakeRadius, ScreenWidth, ScreenHeight]

theorem inCleanupArea_spawned (m : MathLib) (b : Bool) :
    inCleanupArea { Game.spawnFishOfType m legendaryDraw FishLegendary with swimming := b } = true := by
  norm_num [inCleanupArea, Game.spawnFishOfType, NewFish, legendaryDraw, LakeRadius]

theorem update_idle_receives (m : MathLib) (l1 l2 : List Fish) (n : Int)
    (h1 : ∀ f ∈ l1, inCleanupArea f = true) :
    Game.Update m noKeys { NewGame with
      spawnChan := Game.spawnFishOfType m legendaryDraw FishLegendary :: l2,
      fishes := l1, frameCount := n }
    = { NewGame with
        spawnChan := l2,
        fishes := l1 ++
          [{ Game.spawnFishOfType m legendaryDraw FishLegendary with swimming := true }],
        frameCount := n + 1 } := by
  have hf : List.filter inCleanupArea l1 = l1 := List.filter_eq_self.mpr h1
  have hg : List.filter (fun fish => !inCleanupArea fish) l1 = [] := by
    rw [List.filter_eq_nil_iff]
    intro a ha
    simp [h1 a ha]
  have hp := player_idle
  simp only [noKeys] at hp
  simp [Game.Update, Game.tickFrame, Game.updateBobber, Game.recvSpawn, Game.handleInput,
    Game.handleCast, Game.handleReel, Game.updatePlayer, Game.updateCollisions,
    Game.cleanupFishes, NewGame, noKeys, NewBobber, Bobber.Update, hf, hg,
    inCleanupArea_spawned, hp]

theorem spawner_legendary_admitted (m : MathLib) (l2 : List Fish) (h : l2.length < 10) :
    Game.fishSpawnerTick m legendaryDraw { NewGame with spawnChan := l2 }
    = { NewGame with
        spawnChan := l2 ++ [Game.spawnFishOfType m legendaryDraw FishLegendary] } := by
  have hc : Game.canSpawnFish { NewGame with spawnChan := l2 } FishLegendary = true := by
    simp [Game.canSpawnFish, Game.countFishType, NewGame, FishLegendary, FishCommon, FishRare,
      FishEpic, MaxLegendaryFish]
  simp only [Game.fishSpawnerTick, Game.spawnPeriod, randomFishType_legendaryDraw, hc, if_true]
  rw [if_pos (by simpa [ChanCap] using h)]

/-- C4 fails on the code: from the initial game, two spawner periods that both
draw a legendary fish before the main loop runs, followed by two main-loop
ticks, put two legendary fish in the fish list, above the cap of one. -/
theorem population_cap_overshoot (m : MathLib) :
    (run m NewGame overshootTrace).countFishType FishLegendary = 2 ∧
    MaxLegendaryFish < (run m NewGame overshootTrace).countFishType FishLegendary := by
  have h1 : step m NewGame (Event.spawner legendaryDraw)
      = { NewGame with spawnChan := [Game.spawnFishOfType m legendaryDraw FishLegendary] } := by
    have h := spawner_legendary_admitted m [] (by simp)
    simpa [step] using h
  have h2 : step m { NewGame with
        spawnChan := [Game.spawnFishOfType m legendaryDraw FishLegendary] }
        (Event.spawner legendaryDraw)
      = { NewGame with
          spawnChan := [Game.spawnFishOfType m legendaryDraw FishLegendary,
            Game.spawnFishOfType m legendaryDraw FishLegendary] } := by
    have h := spawner_legendary_admitted m
      [Game.spawnFishOfType m legendaryDraw FishLegendary] (by simp)
    simpa [step] using h
  have h3 := update_idle_receives m []
    [Game.spawnFishOfType m legendaryDraw FishLegendary] 0 (by simp)
  have h4 := update_idle_receives m
    [{ Game.spawnFishOfType m legendaryDraw FishLegendary with swimming := true }] [] 1
    (by
      intro f hf
      rw [List.mem_singleton.mp hf]
      exact inCleanupArea_spawned m true)
  have hrun : run m NewGame overshootTrace
      = { NewGame with
          spawnChan := [],
          fishes := [{ Game.spawnFishOfType m legendaryDraw FishLegendary with swimming := true },
            { Game.spawnFishOfType m legendaryDraw FishLegendary with swimming := true }],
          frameCount := 2 } := by
    simp only [run, overshootTrace, List.foldl_cons, List.foldl_nil, h1, h2]
    simp only [step]
    have h3b : Game.Update m noKeys { NewGame with
        spawnChan := [Game.spawnFishOfType m legendaryDraw FishLegendary,
            Game.spawnFishOfType m legendaryDraw FishLegendary] }
        = { NewGame with
            spawnChan := [Game.spawnFishOfType m legendaryDraw FishLegendary],
            fishes := [{ Game.spawnFishOfType m legendaryDraw FishLegendary
              with swimming := true }],
            frameCount := 1 } := by
      simpa [NewGame] using h3
    rw [h3b]
    simpa [NewGame] using h4
  rw [hrun]
  simp [Game.countFishType, Game.spawnFishOfType, NewFish, MaxLegendaryFish]

/-! ## Spawn admission -/

theorem canSpawnFish_table (g : Game) (t : FishType) (cap : Int) (ht : (t, cap) ∈ tierCaps) :
    g.canSpawnFish t = decide (g.countFishType t < cap) := by
  simp only [tierCaps, List.mem_cons, Prod.mk.injEq, List.mem_singleton, List.not_mem_nil,
    or_false] at ht
  rcases ht with ⟨rfl, rfl⟩ | ⟨rfl, rfl⟩ | ⟨rfl, rfl⟩ | ⟨rfl, rfl⟩ <;>
    simp [Game.canSpawnFish, FishCommon, FishRare, FishEpic, FishLegendary]

/-- C5. Spawn admission: for a drawn tier `t` with cap `cap` (10, 6, 4, 1), one
spawner period appends a fish to the spawn queue exactly when
`countFishType t < cap` and the queue holds fewer than 10 fish; the appended
fish has tier `t`; otherwise the whole state, spawn queue and fish list
included, is unchanged. -/
theorem spawnPeriod_admission (m : MathLib) (r : SpawnRand) (g : Game) (t : FishType)
    (cap : Int) (ht : (t, cap) ∈ tierCaps) :
    ((g.countFishType t < cap ∧ g.spawnChan.length < 10) →
      (Game.spawnFishOfType m r t).FishType = t ∧
      g.spawnPeriod m r t = { g with spawnChan := g.spawnChan ++ [Game.spawnFishOfType m r t] } ∧
      (g.spawnPeriod m r t).fishes = g.fishes) ∧
    (¬ (g.countFishType t < cap ∧ g.spawnChan.length < 10) → g.spawnPeriod m r t = g) ∧
    ((g.spawnPeriod m r t).spawnChan ≠ g.spawnChan ↔
      (g.countFishType t < cap ∧ g.spawnChan.length < 10)) ∧
    tierCaps = [(FishCommon, 10), (FishRare, 6), (FishEpic, 4), (FishLegendary, 1)] := by
  have hcan := canSpawnFish_table g t cap ht
  have hyes : (g.countFishType t < cap ∧ g.spawnChan.length < 10) →
      g.spawnPeriod m r t = { g with spawnChan := g.spawnChan ++ [Game.spawnFishOfType m r t] } := by
    rintro ⟨h1, h2⟩
    simp [Game.spawnPeriod, hcan, h1, ChanCap, h2]
  have hno : ¬ (g.countFishType t < cap ∧ g.spawnChan.length < 10) → g.spawnPeriod m r t = g := by
    intro h
    by_cases h1 : g.countFishType t < cap
    · have h2 : ¬ g.spawnChan.length < 10 := fun h2 => h ⟨h1, h2⟩
      simp [Game.spawnPeriod, hcan, h1, ChanCap, h2]
    · simp [Game.spawnPeriod, hcan, h1]
  refine ⟨?_, hno, ?_, rfl⟩
  · intro h
    refine ⟨rfl, hyes h, ?_⟩
    rw [hyes h]
  · constructor
    · intro hne
      by_contra hcon
      exact hne (by rw [hno hcon])
    · intro h
      rw [hyes h]
      simp

/-- C5 at the scenario of the specification: with 10 common fish alive a common
draw enqueues nothing, and the live count stays 10. -/
theorem spawnPeriod_admission_witness :
    (FishCommon, MaxCommonFish) ∈ tierCaps ∧
    tenCommon.countFishType FishCommon = 10 ∧
    tenCommon.spawnPeriod flatMath legendaryDraw FishCommon = tenCommon ∧
    (tenCommon.spawnPeriod flatMath legendaryDraw FishCommon).countFishType FishCommon = 10 := by
  have hcount : tenCommon.countFishType FishCommon = 10 := by
    simp [tenCommon, Game.countFishType, List.replicate, fishAt]
  have h := (spawnPeriod_admission flatMath legendaryDraw tenCommon FishCommon MaxCommonFish
    (by simp [tierCaps])).2.1 (by rw [hcount]; simp [MaxCommonFish])
  exact ⟨by simp [tierCaps], hcount, h, by rw [h]; exact hcount⟩

/-! ## Capture queue saturation -/

theorem checkFishCollisions_queue (g : Game)
    (h : ∃ f ∈ g.fishes, f.CheckCollision g.bobber.X g.bobber.Y 15 = true) :
    g.checkFishCollisions.stopped.length = g.stopped.length + 1 ∧
    g.checkFishCollisions.spawnChan = g.spawnChan ∧
    (10 ≤ g.catchChan.length → g.checkFishCollisions.catchChan = g.catchChan) ∧
    (g.catchChan.length < 10 →
      ∃ t, g.checkFishCollisions.catchChan = g.catchChan ++ [t]) := by
  obtain ⟨i, f, hi, hit, hfirst⟩ := exists_first_collision _ _ _ h
  rw [checkFishCollisions_hit g i f hi hit hfirst]
  refine ⟨by simp, rfl, ?_, ?_⟩
  · intro hc
    exact if_neg (by simp only [ChanCap]; omega)
  · intro hc
    exact ⟨f.FishType, if_pos hc⟩

theorem captureRun_counts (envs : List (List Fish × Bobber)) (g : Game)
    (hcap : g.catchChan.length ≤ 10)
    (hits : ∀ e ∈ envs, ∃ f ∈ e.1, f.CheckCollision e.2.X e.2.Y 15 = true) :
    (captureRun envs g).catchChan.length = min (g.catchChan.length + envs.length) 10 ∧
    (captureRun envs g).stopped.length = g.stopped.length + envs.length := by
  induction envs generalizing g with
  | nil => simp [captureRun, hcap]
  | cons e rest ih =>
    have hstep := checkFishCollisions_queue { g with fishes := e.1, bobber := e.2 }
      (hits e (List.mem_cons_self _ _))
    have hlen : (captureIn g e).catchChan.length = min (g.catchChan.length + 1) 10 := by
      by_cases hc : g.catchChan.length < 10
      · obtain ⟨t, ht⟩ := hstep.2.2.2 hc
        simp only [captureIn, ht, List.length_append, List.length_singleton]
        omega
      · have h10 := hstep.2.2.1 (by simpa using hc)
        simp only [captureIn, h10]
        omega
    have hst : (captureIn g e).stopped.length = g.stopped.length + 1 := hstep.1
    have ih2 := ih (captureIn g e) (by rw [hlen]; omega)
      (fun e2 he2 => hits e2 (List.mem_cons_of_mem _ he2))
    simp only [captureRun, List.foldl_cons, List.length_cons] at ih2 ⊢
    rw [ih2.1, ih2.2, hlen, hst]
    constructor <;> omega

/-- C6. Drop under saturation: a hit while the capture queue already holds 10
events still removes the fish and leaves the probe caught, and the queue is
unchanged; with fewer than 10 events queued exactly one event is appended at the
tail.  After `k` hits in a row from an empty queue, none consumed in between,
`min k 10` events are queued while all `k` fish have been removed and stopped,
so at most `k - 10` score updates are lost. -/
theorem capture_drop_under_saturation (g : Game) (envs : List (List Fish × Bobber)) :
    ((∃ f ∈ g.fishes, f.CheckCollision g.bobber.X g.bobber.Y 15 = true) →
      g.checkFishCollisions.fishes.length + 1 = g.fishes.length ∧
      g.checkFishCollisions.bobber.active = false ∧
      g.checkFishCollisions.bobber.state = BobberState.BobberCaught ∧
      (g.catchChan.length = 10 → g.checkFishCollisions.catchChan = g.catchChan) ∧
      (g.catchChan.length < 10 →
        ∃ t, g.checkFishCollisions.catchChan = g.catchChan ++ [t])) ∧
    (g.catchChan = [] →
      (∀ e ∈ envs, ∃ f ∈ e.1, f.CheckCollision e.2.X e.2.Y 15 = true) →
      (captureRun envs g).catchChan.length = min envs.length 10 ∧
      (captureRun envs g).stopped.length = g.stopped.length + envs.length ∧
      envs.length - (captureRun envs g).catchChan.length ≤ envs.length - 10) := by
  constructor
  · intro h
    have h1 := checkFishCollisions_hit_effect g h
    have h2 := checkFishCollisions_queue g h
    exact ⟨h1.2.1, h1.2.2.1, h1.2.2.2.1, fun hc => h2.2.2.1 (by omega), h2.2.2.2⟩
  · intro hempty hits
    have h := captureRun_counts envs g (by simp [hempty]) hits
    simp only [hempty, List.length_nil, Nat.zero_add] at h
    refine ⟨h.1, h.2, ?_⟩
    rw [h.1]
    omega

theorem hit_at_105 : (fishAt 105 100 FishRare).CheckCollision 100 100 15 = true := by
  norm_num [Fish.CheckCollision, fishAt]

/-- C6 on a full queue (the event of the rare fish is dropped, the fish is
removed) and on eleven hits from an empty queue (ten events queued, eleven fish
stopped, one score update lost). -/
theorem capture_drop_under_saturation_witness :
    (saturated.checkFishCollisions.catchChan = List.replicate 10 FishCommon ∧
      saturated.checkFishCollisions.fishes.length + 1 = 1) ∧
    ((captureRun elevenHits NewGame).catchChan.length = 10 ∧
      (captureRun elevenHits NewGame).stopped.length = 11) := by
  have hsat := (capture_drop_under_saturation saturated []).1
    ⟨fishAt 105 100 FishRare, by simp [saturated, sceneWith], hit_at_105⟩
  have hrun := (capture_drop_under_saturation NewGame elevenHits).2 rfl
    (by
      intro e he
      rw [List.eq_of_mem_replicate he]
      exact ⟨fishAt 105 100 FishRare, by simp [sceneWith], hit_at_105⟩)
  refine ⟨⟨hsat.2.2.2.1 (by simp [saturated]), hsat.1⟩, ?_, ?_⟩
  · have h := hrun.1
    simpa [elevenHits] using h
  · have h := hrun.2.1
    simpa [elevenHits, NewGame] using h

/-! ## Tier thresholds -/

/-- C7. Tier thresholds: on a roll `r`, `randomFishType` returns common iff
`r < 0.60`, rare iff `0.60 ≤ r < 0.85`, epic iff `0.85 ≤ r < 0.97` and legendary
iff `0.97 ≤ r`; on `[0, 1)` these four intervals have widths 0.60, 0.25, 0.12
and 0.03, which add up to 1. -/
theorem randomFishType_thresholds (r : ℚ) :
    (Game.randomFishType r = FishCommon ↔ r < 60 / 100) ∧
    (Game.randomFishType r = FishRare ↔ 60 / 100 ≤ r ∧ r < 85 / 100) ∧
    (Game.randomFishType r = FishEpic ↔ 85 / 100 ≤ r ∧ r < 97 / 100) ∧
    (Game.randomFishType r = FishLegendary ↔ 97 / 100 ≤ r) ∧
    ((60 / 100 : ℚ) - 0 = 60 / 100 ∧ (85 / 100 : ℚ) - 60 / 100 = 25 / 100 ∧
      (97 / 100 : ℚ) - 85 / 100 = 12 / 100 ∧ (1 : ℚ) - 97 / 100 = 3 / 100 ∧
      (60 / 100 : ℚ) + 25 / 100 + 12 / 100 + 3 / 100 = 1) := by
  have hd : FishCommon ≠ FishRare ∧ FishCommon ≠ FishEpic ∧ FishCommon ≠ FishLegendary ∧
      FishRare ≠ FishEpic ∧ FishRare ≠ FishLegendary ∧ FishEpic ≠ FishLegendary := by decide
  obtain ⟨h01, h02, h03, h12, h13, h23⟩ := hd
  refine ⟨?_, ?_, ?_, ?_, by norm_num⟩
  · unfold Game.randomFishType
    constructor
    · intro h
      by_contra hc
      rw [if_neg hc] at h
      split_ifs at h
      · exact h01 h.symm
      · exact h02 h.symm
      · exact h03 h.symm
    · intro h
      rw [if_pos h]
  · unfold Game.randomFishType
    constructor
    · intro h
      split_ifs at h with a b c
      · exact absurd h h01
      · exact ⟨le_of_not_lt a, b⟩
      · exact absurd h.symm h12
      · exact absurd h.symm h13
    · rintro ⟨a, b⟩
      rw [if_neg (not_lt.mpr a), if_pos b]
  · unfold Game.randomFishType
    constructor
    · intro h
      split_ifs at h with a b c
      · exact absurd h h02
      · exact absurd h h12
      · exact ⟨le_of_not_lt b, c⟩
      · exact absurd h.symm h23
    · rintro ⟨a, b⟩
      have a2 : ¬ r < 60 / 100 := by
        intro hlt
        have : (85 / 100 : ℚ) < 60 / 100 := lt_of_le_of_lt a hlt
        norm_num at this
      rw [if_neg a2, if_neg (not_lt.mpr a), if_pos b]
  · unfold Game.randomFishType
    constructor
    · intro h
      split_ifs at h with a b c
      · exact absurd h h03
      · exact absurd h h13
      · exact absurd h h23
      · exact le_of_not_lt c
    · intro a
      have a1 : ¬ r < 85 / 100 := by
        intro hlt
        have : (97 / 100 : ℚ) < 85 / 100 := lt_of_le_of_lt a hlt
        norm_num at this
      have a0 : ¬ r < 60 / 100 := by
        intro hlt
        have : (97 / 100 : ℚ) < 60 / 100 := lt_of_le_of_lt a hlt
        norm_num at this
      rw [if_neg a0, if_neg a1, if_neg (not_lt.mpr a)]

/-! ## One capture per cast -/

theorem CastInv_NewGame : CastInv NewGame := by
  simp [CastInv, NewGame, NewBobber]

theorem CastInv_of_same (g g2 : Game) (h : CastInv g) (h1 : g2.state = g.state)
    (h2 : g2.bobber.active = g.bobber.active) (h3 : g2.bobber.state = g.bobber.state)
    (h4 : g2.capturesThisCast = g.capturesThisCast) : CastInv g2 := by
  unfold CastInv at h ⊢
  rw [h1, h2, h3, h4]
  exact h

theorem recvSpawn_same (g : Game) :
    g.recvSpawn.state = g.state ∧ g.recvSpawn.bobber = g.bobber ∧
    g.recvSpawn.capturesThisCast = g.capturesThisCast ∧
    g.recvSpawn.pendingResets = g.pendingResets ∧ g.recvSpawn.catchChan = g.catchChan := by
  unfold Game.recvSpawn
  split <;> simp

theorem updatePlayer_same (k : Keys) (g : Game) :
    (g.updatePlayer k).state = g.state ∧ (g.updatePlayer k).bobber = g.bobber ∧
    (g.updatePlayer k).capturesThisCast = g.capturesThisCast ∧
    (g.updatePlayer k).pendingResets = g.pendingResets ∧
    (g.updatePlayer k).catchChan = g.catchChan := by
  unfold Game.updatePlayer
  split <;> simp

theorem cleanupFishes_same (g : Game) :
    g.cleanupFishes.state = g.state ∧ g.cleanupFishes.bobber = g.bobber ∧
    g.cleanupFishes.capturesThisCast = g.capturesThisCast ∧
    g.cleanupFishes.pendingResets = g.pendingResets ∧
    g.cleanupFishes.catchChan = g.catchChan := by
  simp [Game.cleanupFishes]

theorem bobberUpdate_same (b : Bobber) :
    b.Update.active = b.active ∧ b.Update.state = b.state := by
  unfold Bobber.Update
  split <;> simp

theorem CastInv_handleCast (m : MathLib) (k : Keys) (g : Game) (h : CastInv g) :
    CastInv (g.handleCast m k) := by
  unfold Game.handleCast
  split
  · split
    · simp [CastInv, Bobber.Cast]
    · exact h
  · exact h

theorem CastInv_handleReel (k : Keys) (g : Game) (h : CastInv g) :
    CastInv (g.handleReel k) := by
  unfold Game.handleReel
  split
  · obtain ⟨h1, _, _, _⟩ := h
    simp [CastInv, Bobber.Reset, h1]
  · exact h

theorem checkFishCollisions_cases (g : Game) :
    g.checkFishCollisions = g ∨
    (g.checkFishCollisions.state = g.state ∧
      g.checkFishCollisions.bobber.active = false ∧
      g.checkFishCollisions.bobber.state = BobberState.BobberCaught ∧
      g.checkFishCollisions.capturesThisCast = g.capturesThisCast + 1) := by
  unfold Game.checkFishCollisions
  split
  · left; rfl
  · right; simp [Bobber.SetState]

theorem CastInv_updateCollisions (g : Game) (h : CastInv g) : CastInv g.updateCollisions := by
  unfold Game.updateCollisions
  split
  · rename_i hact
    rcases checkFishCollisions_cases g with hsame | ⟨h1, h2, h3, h4⟩
    · rw [hsame]; exact h
    · obtain ⟨_, hb, _, _⟩ := h
      obtain ⟨hb1, hb2, _⟩ := hb hact
      unfold CastInv
      rw [h1, h2, h3, h4, hb1]
      simp [hb2]
  · exact h

theorem CastInv_Update (m : MathLib) (k : Keys) (g : Game) (h : CastInv g) :
    CastInv (g.Update m k) := by
  unfold Game.Update
  have h0 : CastInv g.tickFrame := CastInv_of_same g _ h rfl rfl rfl rfl
  have hr := recvSpawn_same g.tickFrame
  have h1 : CastInv g.tickFrame.recvSpawn :=
    CastInv_of_same _ _ h0 hr.1 (by rw [hr.2.1]) (by rw [hr.2.1]) hr.2.2.1
  have h2 : CastInv (Game.handleInput m k g.tickFrame.recvSpawn) :=
    CastInv_handleReel k _ (CastInv_handleCast m k _ h1)
  have hp := updatePlayer_same k (Game.handleInput m k g.tickFrame.recvSpawn)
  have h3 : CastInv (Game.updatePlayer k (Game.handleInput m k g.tickFrame.recvSpawn)) :=
    CastInv_of_same _ _ h2 hp.1 (by rw [hp.2.1]) (by rw [hp.2.1]) hp.2.2.1
  have h4 : CastInv (Game.updateBobber
      (Game.updatePlayer k (Game.handleInput m k g.tickFrame.recvSpawn))) :=
    CastInv_of_same _ _ h3 rfl (bobberUpdate_same _).1 (bobberUpdate_same _).2 rfl
  have h5 := CastInv_updateCollisions _ h4
  have hc := cleanupFishes_same (Game.updateCollisions (Game.updateBobber
      (Game.updatePlayer k (Game.handleInput m k g.tickFrame.recvSpawn))))
  exact CastInv_of_same _ _ h5 hc.1 (by rw [hc.2.1]) (by rw [hc.2.1]) hc.2.2.1

theorem CastInv_step (m : MathLib) (g : Game) (e : Event) (h : CastInv g) :
    CastInv (step m g e) := by
  cases e with
  | spawner r =>
    refine CastInv_of_same g _ h ?_ ?_ ?_ ?_ <;>
    · simp only [step, Game.fishSpawnerTick, Game.spawnPeriod]
      split_ifs <;> rfl
  | update k => exact CastInv_Update m k g h
  | swim i r => exact CastInv_of_same g _ h rfl rfl rfl rfl
  | swimStopped i r => exact CastInv_of_same g _ h rfl rfl rfl rfl
  | catchProc =>
    refine CastInv_of_same g _ h ?_ ?_ ?_ ?_ <;>
    · simp only [step, Game.catchProcessorTick]
      split
      · rfl
      · simp only [Game.catchProcessorHandle]
        split_ifs <;> rfl
  | reset =>
    simp only [step]
    split
    · exact h
    · obtain ⟨h1, _, _, _⟩ := h
      simp [CastInv, Game.resetAfterCatch, Bobber.Reset, h1]

theorem CastInv_run (m : MathLib) (evs : List Event) (g : Game) (h : CastInv g) :
    CastInv (run m g evs) := by
  induction evs generalizing g with
  | nil => exact h
  | cons e rest ih => exact ih (step m g e) (CastInv_step m g e h)

theorem handleInput_frame (m : MathLib) (k : Keys) (g : Game) :
    (g.handleInput m k).pendingResets = g.pendingResets ∧
    (g.handleInput m k).catchChan = g.catchChan := by
  unfold Game.handleInput Game.handleReel Game.handleCast
  split_ifs <;> simp

theorem handleInput_inert (m : MathLib) (k : Keys) (g : Game)
    (hs : g.state ≠ GameState.StatePlaying) (ha : g.bobber.active = false) :
    (g.handleInput m k).bobber.active = false ∧
    (g.handleInput m k).capturesThisCast = g.capturesThisCast := by
  have hc : g.handleCast m k = g := by
    unfold Game.handleCast
    simp [hs]
  unfold Game.handleInput
  rw [hc]
  unfold Game.handleReel
  split_ifs <;> simp [Bobber.Reset, ha]

theorem handleInput_activation (m : MathLib) (k : Keys) (g : Game)
    (h : (g.handleInput m k).bobber.active = true) :
    g.bobber.active = true ∨ (k.space = true ∧ g.state = GameState.StatePlaying) := by
  by_cases hs : k.space = true ∧ g.state = GameState.StatePlaying
  · exact Or.inr hs
  · left
    have hc : g.handleCast m k = g := by
      unfold Game.handleCast
      rw [if_neg (by simpa using hs)]
    unfold Game.handleInput at h
    rw [hc] at h
    unfold Game.handleReel at h
    split_ifs at h
    · simp [Bobber.Reset] at h
    · exact h

theorem updateCollisions_inactive (g : Game) (h : g.bobber.active = false) :
    g.updateCollisions = g := by
  unfold Game.updateCollisions
  simp [h]

theorem updateCollisions_activation (g : Game) (h : g.updateCollisions.bobber.active = true) :
    g.bobber.active = true := by
  by_cases ha : g.bobber.active = true
  · exact ha
  · rw [updateCollisions_inactive g (by simpa using ha)] at h
    exact h

/-- A tick that starts with the probe inactive outside `StatePlaying` captures
nothing and leaves the probe inactive. -/
theorem Update_inert (m : MathLib) (k : Keys) (g : Game)
    (hs : g.state ≠ GameState.StatePlaying) (ha : g.bobber.active = false) :
    (g.Update m k).bobber.active = false ∧
    (g.Update m k).capturesThisCast = g.capturesThisCast ∧
    (g.Update m k).pendingResets = g.pendingResets ∧
    (g.Update m k).catchChan = g.catchChan := by
  have hr := recvSpawn_same g.tickFrame
  have hi := handleInput_inert m k g.tickFrame.recvSpawn (by rw [hr.1]; exact hs)
    (by rw [hr.2.1]; exact ha)
  have hf := handleInput_frame m k g.tickFrame.recvSpawn
  have hp := updatePlayer_same k (Game.handleInput m k g.tickFrame.recvSpawn)
  have hb : (Game.updateBobber (Game.updatePlayer k
      (Game.handleInput m k g.tickFrame.recvSpawn))).bobber.active = false := by
    show (Bobber.Update _).active = false
    rw [(bobberUpdate_same _).1, hp.2.1]
    exact hi.1
  have hc := cleanupFishes_same (Game.updateCollisions (Game.updateBobber
      (Game.updatePlayer k (Game.handleInput m k g.tickFrame.recvSpawn))))
  unfold Game.Update
  rw [hc.2.1, hc.2.2.1, hc.2.2.2.1, hc.2.2.2.2, updateCollisions_inactive _ hb]
  refine ⟨hb, ?_, ?_, ?_⟩
  · show (Game.updatePlayer k _).capturesThisCast = _
    rw [hp.2.2.1, hi.2, hr.2.2.1]
    rfl
  · show (Game.updatePlayer k _).pendingResets = _
    rw [hp.2.2.2.1, hf.1, hr.2.2.2.1]
    rfl
  · show (Game.updatePlayer k _).catchChan = _
    rw [hp.2.2.2.2, hf.2, hr.2.2.2.2]
    rfl

/-- A tick ends with the probe active only if it was active or the tick cast it. -/
theorem Update_activation (m : MathLib) (k : Keys) (g : Game)
    (h : (g.Update m k).bobber.active = true) :
    g.bobber.active = true ∨ (k.space = true ∧ g.state = GameState.StatePlaying) := by
  have hr := recvSpawn_same g.tickFrame
  have hp := updatePlayer_same k (Game.handleInput m k g.tickFrame.recvSpawn)
  have hc := cleanupFishes_same (Game.updateCollisions (Game.updateBobber
      (Game.updatePlayer k (Game.handleInput m k g.tickFrame.recvSpawn))))
  unfold Game.Update at h
  rw [hc.2.1] at h
  have h2 := updateCollisions_activation _ h
  have h3 : (Game.handleInput m k g.tickFrame.recvSpawn).bobber.active = true := by
    have h4 : (Bobber.Update (Game.updatePlayer k
        (Game.handleInput m k g.tickFrame.recvSpawn)).bobber).active = true := h2
    rw [(bobberUpdate_same _).1, hp.2.1] at h4
    exact h4
  have h5 := handleInput_activation m k _ h3
  rw [hr.2.1, hr.1] at h5
  exact h5

theorem step_caught (m : MathLib) (g : Game) (e : Event) (hinv : CastInv g)
    (hc : g.bobber.state = BobberState.BobberCaught) :
    (step m g e).bobber.active = false ∧ (step m g e).capturesThisCast = 1 ∧
    (step m g e).pendingResets ≤ g.pendingResets := by
  obtain ⟨_, hact, hcaught, _⟩ := hinv
  obtain ⟨hone, hfishing⟩ := hcaught hc
  have ha : g.bobber.active = false := by
    by_contra hne
    have h := (hact (by simpa using hne)).2.2
    rw [hc] at h
    exact absurd h (by decide)
  cases e with
  | spawner r =>
    refine ⟨?_, ?_, ?_⟩ <;>
    · simp only [step, Game.fishSpawnerTick, Game.spawnPeriod]
      split_ifs <;> simp [ha, hone]
  | update k =>
    have h := Update_inert m k g (by rw [hfishing]; decide) ha
    exact ⟨h.1, by rw [← hone]; exact h.2.1, le_of_eq h.2.2.1⟩
  | swim i r => exact ⟨ha, hone, le_refl _⟩
  | swimStopped i r => exact ⟨ha, hone, le_refl _⟩
  | catchProc =>
    refine ⟨?_, ?_, ?_⟩ <;>
    · simp only [step, Game.catchProcessorTick]
      split
      · simp [ha, hone]
      · simp only [Game.catchProcessorHandle]
        split_ifs <;> simp [ha, hone]
  | reset =>
    simp only [step]
    split
    · exact ⟨ha, hone, le_refl _⟩
    · simp [Game.resetAfterCatch, Bobber.Reset, hone]

theorem step_activation (m : MathLib) (g : Game) (e : Event)
    (h : (step m g e).bobber.active = true) :
    g.bobber.active = true ∨
      (g.state = GameState.StatePlaying ∧ ∃ k, e = Event.update k ∧ k.space = true) := by
  cases e with
  | spawner r =>
    left
    simp only [step, Game.fishSpawnerTick, Game.spawnPeriod] at h
    split_ifs at h <;> exact h
  | update k =>
    rcases Update_activation m k g h with h1 | ⟨h1, h2⟩
    · exact Or.inl h1
    · exact Or.inr ⟨h2, k, rfl, h1⟩
  | swim i r => exact Or.inl h
  | swimStopped i r => exact Or.inl h
  | catchProc =>
    left
    simp only [step, Game.catchProcessorTick] at h
    split at h
    · exact h
    · simp only [Game.catchProcessorHandle] at h
      split_ifs at h <;> exact h
  | reset =>
    left
    simp only [step] at h
    split at h
    · exact h
    · simp [Game.resetAfterCatch, Bobber.Reset] at h

/-- The cast cycle when every `Update` runs as one step, so that no reset falls
inside it: (1) at most one fish has been captured since the last cast; (2) an
active probe has captured nothing; (3) with the probe inactive the collision
step of `Update` does nothing; (4) while the probe is caught it is inactive, one
capture is on record, and no single step captures again or reactivates it; (5) a
step activates the probe only by a cast, from `StatePlaying` with the probe
floating.  Parts (4) and (5) need the atomic `Update`. -/
theorem atomic_update_cast_cycle (m : MathLib) (evs : List Event) :
    (run m NewGame evs).capturesThisCast ≤ 1 ∧
    ((run m NewGame evs).bobber.active = true → (run m NewGame evs).capturesThisCast = 0) ∧
    ((run m NewGame evs).bobber.active = false →
      (run m NewGame evs).updateCollisions = run m NewGame evs) ∧
    ((run m NewGame evs).bobber.state = BobberState.BobberCaught →
      (run m NewGame evs).bobber.active = false ∧
      (run m NewGame evs).capturesThisCast = 1 ∧
      (run m NewGame evs).state = GameState.StateFishing ∧
      ∀ e, (step m (run m NewGame evs) e).bobber.active = false ∧
        (step m (run m NewGame evs) e).capturesThisCast = 1 ∧
        (step m (run m NewGame evs) e).pendingResets ≤ (run m NewGame evs).pendingResets) ∧
    (∀ e, (run m NewGame evs).bobber.active = false →
      (step m (run m NewGame evs) e).bobber.active = true →
      (run m NewGame evs).state = GameState.StatePlaying ∧
      (run m NewGame evs).bobber.state = BobberState.BobberFloating ∧
      ∃ k, e = Event.update k ∧ k.space = true) := by
  have hinv := CastInv_run m evs NewGame CastInv_NewGame
  generalize run m NewGame evs = g at hinv
  have hinv2 := hinv
  obtain ⟨h1, hact, hcaught, hbite⟩ := hinv
  refine ⟨h1, fun ha => (hact ha).1, updateCollisions_inactive g, ?_, ?_⟩
  · intro hc
    have ha : g.bobber.active = false := by
      by_contra hne
      have h := (hact (by simpa using hne)).2.2
      rw [hc] at h
      exact absurd h (by decide)
    exact ⟨ha, (hcaught hc).1, (hcaught hc).2, fun e => step_caught m g e hinv2 hc⟩
  · intro e ha h
    rcases step_activation m g e h with h2 | ⟨h2, h3⟩
    · rw [ha] at h2
      exact absurd h2 (by decide)
    · refine ⟨h2, ?_, h3⟩
      cases hb : g.bobber.state with
      | BobberFloating => rfl
      | BobberBite => exact absurd hb hbite
      | BobberCaught =>
        have h4 := (hcaught hb).2
        rw [h2] at h4
        exact absurd h4 (by decide)

theorem captureTrace_caught :
    (run southMath NewGame captureTrace).bobber.state = BobberState.BobberCaught := by
  norm_num [run, step, captureTrace, Game.fishSpawnerTick, Game.spawnPeriod, Game.randomFishType,
    commonDraw, Game.canSpawnFish, Game.countFishType, NewGame, Game.Update, Game.tickFrame,
    Game.updateBobber, Game.recvSpawn, Game.handleInput, Game.handleCast, Game.handleReel,
    Game.updatePlayer, Game.updateCollisions, Game.cleanupFishes, noKeys, spaceKey, NewBobber,
    Bobber.Update, Bobber.Cast, Bobber.SetState, Player.Update, Player.animateFishing,
    Player.animateWalk, Player.clamp, Player.undoInWater, Player.moveKeys, Player.isInWater,
    Player.IsNearWater, Player.Cast, NewPlayer, LakeCenterX, LakeCenterY, LakeRadius,
    ScreenWidth, ScreenHeight, southMath, Game.spawnFishOfType, NewFish, Game.checkFishCollisions,
    firstCollision, Fish.CheckCollision, FishCommon, FishRare, FishEpic, FishLegendary,
    MaxCommonFish, ChanCap, inCleanupArea, Fish.Stop, reduceCtorEq, FrameDelay]
  simp

/-- The atomic cast cycle on a run with a capture: after the cast onto the fish
the probe is caught, inactive, and one capture is on record. -/
theorem atomic_update_cast_cycle_example :
    (run southMath NewGame captureTrace).bobber.state = BobberState.BobberCaught ∧
    (run southMath NewGame captureTrace).bobber.active = false ∧
    (run southMath NewGame captureTrace).capturesThisCast = 1 ∧
    (run southMath NewGame captureTrace).state = GameState.StateFishing :=
  ⟨captureTrace_caught,
    ((atomic_update_cast_cycle southMath captureTrace).2.2.2.1 captureTrace_caught).1,
    ((atomic_update_cast_cycle southMath captureTrace).2.2.2.1 captureTrace_caught).2.1,
    ((atomic_update_cast_cycle southMath captureTrace).2.2.2.1 captureTrace_caught).2.2.1⟩

/-! ## Removal stops the actor -/

/-- C10. No mutation after removal: a capture deletes one index of the fish list
and records that fish, stopped, with `active = false`; a prune keeps the fish
inside the cleanup area and records every other fish, stopped, with
`active = false`; and a `Swim` tick of a fish with `active = false` leaves its
position, velocity, frame and frame counter unchanged and ends the goroutine. -/
theorem no_mutation_after_removal (m : MathLib) (r : SwimRand) (g : Game) (f : Fish) :
    (g.checkFishCollisions = g ∨
      ∃ (i : Nat) (fish : Fish), g.fishes[i]? = some fish ∧
        g.checkFishCollisions.fishes = g.fishes.eraseIdx i ∧
        g.checkFishCollisions.stopped = g.stopped ++ [fish.Stop] ∧
        fish.Stop.active = false) ∧
    (g.cleanupFishes.fishes = g.fishes.filter inCleanupArea ∧
      (∀ fish ∈ g.fishes, fish ∈ g.cleanupFishes.fishes ∨ fish.Stop ∈ g.cleanupFishes.stopped) ∧
      (∀ fish ∈ g.cleanupFishes.stopped, fish ∈ g.stopped ∨ fish.active = false)) ∧
    (f.active = false →
      (f.SwimTick m r).X = f.X ∧ (f.SwimTick m r).Y = f.Y ∧
      (f.SwimTick m r).vx = f.vx ∧ (f.SwimTick m r).vy = f.vy ∧
      (f.SwimTick m r).frame = f.frame ∧ (f.SwimTick m r).frameCount = f.frameCount ∧
      (f.SwimTick m r).active = false ∧ (f.SwimTick m r).swimming = false) := by
  refine ⟨?_, ⟨rfl, ?_, ?_⟩, ?_⟩
  · by_cases h : ∃ f ∈ g.fishes, f.CheckCollision g.bobber.X g.bobber.Y 15 = true
    · right
      obtain ⟨i, fish, hi, hit, hfirst⟩ := exists_first_collision _ _ _ h
      refine ⟨i, fish, hi, ?_, ?_, rfl⟩
      · rw [checkFishCollisions_hit g i fish hi hit hfirst]
        exact (List.eraseIdx_eq_take_drop_succ _ _).symm
      · rw [checkFishCollisions_hit g i fish hi hit hfirst]
    · left
      apply checkFishCollisions_miss
      intro f2 hf2
      by_contra hc
      exact h ⟨f2, hf2, by simpa using hc⟩
  · intro fish hfish
    by_cases hk : inCleanupArea fish = true
    · left
      simp only [Game.cleanupFishes, List.mem_filter]
      exact ⟨hfish, hk⟩
    · right
      simp only [Game.cleanupFishes, List.mem_append, List.mem_map, List.mem_filter]
      right
      exact ⟨fish, ⟨hfish, by simpa using hk⟩, rfl⟩
  · intro fish hfish
    simp only [Game.cleanupFishes, List.mem_append, List.mem_map, List.mem_filter] at hfish
    rcases hfish with h | ⟨a, _, rfl⟩
    · exact Or.inl h
    · exact Or.inr rfl
  · intro ha
    unfold Fish.SwimTick
    by_cases hs : f.swimming = true
    · simp [hs, ha]
    · have hs2 : f.swimming = false := by simpa using hs
      simp [hs2, ha]

/-- C10 on a stopped fish: its next `Swim` tick changes nothing and returns. -/
theorem no_mutation_after_removal_witness :
    (fishAt 105 100 FishRare).Stop.active = false ∧
    ((fishAt 105 100 FishRare).Stop.SwimTick flatMath
        { rChange := 0, rAngle := 0, rSpeed := 0, rBackX := 0, rBackY := 0 }).X = 105 ∧
    ((fishAt 105 100 FishRare).Stop.SwimTick flatMath
        { rChange := 0, rAngle := 0, rSpeed := 0, rBackX := 0, rBackY := 0 }).swimming = false := by
  have h := (no_mutation_after_removal flatMath
    { rChange := 0, rAngle := 0, rSpeed := 0, rBackX := 0, rBackY := 0 } NewGame
    (fishAt 105 100 FishRare).Stop).2.2 rfl
  exact ⟨rfl, h.1, h.2.2.2.2.2.2.2⟩

/-! ## Shutdown -/

theorem catchProcessorSelect_open (pickDone : Bool) (g : Game) :
    ((Runtime.start g).catchProcessorSelect pickDone).g = g.catchProcessorTick := by
  unfold Runtime.catchProcessorSelect Game.catchProcessorTick Runtime.start
  cases hq : g.catchChan with
  | nil => simp [hq]
  | cons t rest => simp [hq]

theorem fishSpawnerSelect_open (m : MathLib) (r : SpawnRand) (pickDone : Bool) (g : Game) :
    ((Runtime.start g).fishSpawnerSelect m r pickDone).g = g.fishSpawnerTick m r := by
  unfold Runtime.fishSpawnerSelect Game.fishSpawnerTick Runtime.start
  by_cases hc : g.canSpawnFish (Game.randomFishType r.roll) = true
  · simp [hc]
  · simp [hc, Game.spawnPeriod]

/-- C9 fails on the code.  From the initial game, with no capture event ever
enqueued: after `Cleanup` has cancelled and closed the channels, a
`catchProcessor` iteration that takes the receive case gets the zero value from
the closed channel and books it as a common fish (score 10); both goroutines
then exit and `wg.Wait` can return with the phantom score in place.  And a
`fishSpawner` iteration that takes the ticker case after the close sends on the
closed spawn channel and panics. -/
theorem cleanup_phantom_score_and_panic (m : MathLib) :
    NewGame.catchChan = [] ∧ NewGame.score = 0 ∧
    (((((Runtime.start NewGame).Cleanup.catchProcessorSelect false).catchProcessorSelect
        true).fishSpawnerSelect m legendaryDraw true).waitReturns = true) ∧
    (((((Runtime.start NewGame).Cleanup.catchProcessorSelect false).catchProcessorSelect
        true).fishSpawnerSelect m legendaryDraw true).g.score = 10) ∧
    (((((Runtime.start NewGame).Cleanup.catchProcessorSelect false).catchProcessorSelect
        true).fishSpawnerSelect m legendaryDraw true).g.fishCaught = 1) ∧
    (((((Runtime.start NewGame).Cleanup.catchProcessorSelect false).catchProcessorSelect
        true).fishSpawnerSelect m legendaryDraw true).g.commonCount = 1) ∧
    (((((Runtime.start NewGame).Cleanup.catchProcessorSelect false).catchProcessorSelect
        true).fishSpawnerSelect m legendaryDraw true).panicked = false) ∧
    ((Runtime.start NewGame).Cleanup.fishSpawnerSelect m legendaryDraw false).panicked = true := by
  have hroll := randomFishType_legendaryDraw
  have hcan : ∀ g : Game, g.fishes = [] → g.canSpawnFish FishLegendary = true := by
    intro g hg
    simp [Game.canSpawnFish, Game.countFishType, hg, FishLegendary, FishCommon, FishRare,
      FishEpic, MaxLegendaryFish]
  refine ⟨rfl, rfl, ?_, ?_, ?_, ?_, ?_, ?_⟩ <;>
    simp [Runtime.start, Runtime.Cleanup, Runtime.catchProcessorSelect,
      Runtime.fishSpawnerSelect, Runtime.waitReturns, Game.catchProcessorHandle,
      Game.getPointsForFish, NewGame, FishCommon, hroll, hcan]

/-! ## Activity flag at creation -/

/-- C13 fails on the code: a fish built by `NewFish` is active at once. -/
theorem newFish_not_inactive :
    (NewFish flatMath 0 0 320 240 FishCommon).active ≠ false := by
  simp [NewFish]

/-- C13 as the code has it: for every position and tier the fish built by
`NewFish`, and so the fish the spawner puts on the spawn queue, has its
activity flag true from creation; when the main loop takes a fish off the spawn
queue it registers it at the end of the fish list with the flag as it was and
starts its `Swim` goroutine. -/
theorem newFish_active_from_creation (m : MathLib) (rAngle rSpeed x y : ℚ) (t : FishType)
    (r : SpawnRand) (g : Game) :
    (NewFish m rAngle rSpeed x y t).active = true ∧
    (Game.spawnFishOfType m r t).active = true ∧
    (∀ fish ∈ (g.fishSpawnerTick m r).spawnChan, fish ∈ g.spawnChan ∨ fish.active = true) ∧
    (∀ (fish : Fish) (rest : List Fish), g.spawnChan = fish :: rest →
      g.recvSpawn.spawnChan = rest ∧
      g.recvSpawn.fishes = g.fishes ++ [{ fish with swimming := true }] ∧
      ({ fish with swimming := true } : Fish).active = fish.active) := by
  refine ⟨rfl, rfl, ?_, ?_⟩
  · intro fish hfish
    simp only [Game.fishSpawnerTick, Game.spawnPeriod] at hfish
    split_ifs at hfish
    · rcases List.mem_append.mp hfish with h | h
      · exact Or.inl h
      · rw [List.mem_singleton.mp h]
        exact Or.inr rfl
    · exact Or.inl hfish
    · exact Or.inl hfish
  · intro fish rest hq
    simp [Game.recvSpawn, hq]

/-- C13 on a queued fish: it is active while it waits, and registration keeps
the flag and starts the goroutine. -/
theorem newFish_active_from_creation_witness :
    oneQueued.spawnChan = [NewFish flatMath 0 0 320 240 FishCommon] ∧
    oneQueued.recvSpawn.spawnChan = [] ∧
    oneQueued.recvSpawn.fishes
      = [{ NewFish flatMath 0 0 320 240 FishCommon with swimming := true }] ∧
    (NewFish flatMath 0 0 320 240 FishCommon).active = true := by
  have h := newFish_active_from_creation flatMath 0 0 320 240 FishCommon legendaryDraw oneQueued
  have h2 := h.2.2.2 (NewFish flatMath 0 0 320 240 FishCommon) [] rfl
  exact ⟨rfl, h2.1, h2.2.1, h.1⟩

/-! ## The player and the water -/

theorem animate_pos (p : Player) :
    (Player.animateFishing (Player.animateWalk p)).X = p.X ∧
    (Player.animateFishing (Player.animateWalk p)).Y = p.Y := by
  unfold Player.animateFishing Player.animateWalk
  constructor <;> split_ifs <;> rfl

theorem Update_pos (k : Keys) (p : Player) :
    (p.Update k).X
      = (Player.clamp (Player.undoInWater p.X p.Y
          (Player.moveKeys k { p with moving := false }))).X ∧
    (p.Update k).Y
      = (Player.clamp (Player.undoInWater p.X p.Y
          (Player.moveKeys k { p with moving := false }))).Y := by
  unfold Player.Update
  exact animate_pos _

theorem isInWater_false_iff (p : Player) :
    p.isInWater = false ↔
      (LakeRadius - 10) * (LakeRadius - 10)
        ≤ (p.X - LakeCenterX) * (p.X - LakeCenterX)
          + (p.Y - LakeCenterY) * (p.Y - LakeCenterY) := by
  simp [Player.isInWater]

theorem clamp_box (p : Player) :
    20 ≤ p.clamp.X ∧ p.clamp.X ≤ ScreenWidth - 20 ∧
    20 ≤ p.clamp.Y ∧ p.clamp.Y ≤ ScreenHeight - 20 := by
  unfold Player.clamp
  simp only [ScreenWidth, ScreenHeight]
  refine ⟨?_, ?_, ?_, ?_⟩ <;> split_ifs <;> norm_num at * <;> linarith

theorem clamp_keeps_dry (p : Player) (h : p.isInWater = false) : p.clamp.isInWater = false := by
  rw [isInWater_false_iff] at h ⊢
  unfold Player.clamp
  simp only [ScreenWidth, ScreenHeight, LakeRadius, LakeCenterX, LakeCenterY] at h ⊢
  split_ifs <;> norm_num at * <;>
    nlinarith [mul_self_nonneg (p.X - 320), mul_self_nonneg (p.Y - 240)]

theorem clamp_inside (p : Player) (hx1 : 20 ≤ p.X) (hx2 : p.X ≤ ScreenWidth - 20)
    (hy1 : 20 ≤ p.Y) (hy2 : p.Y ≤ ScreenHeight - 20) :
    p.clamp.X = p.X ∧ p.clamp.Y = p.Y := by
  unfold Player.clamp
  simp only [ScreenWidth, ScreenHeight] at *
  constructor <;> split_ifs <;> first | rfl | (exfalso; linarith)

theorem Ashore_Update (k : Keys) (p : Player) (h : Ashore p) : Ashore (p.Update k) := by
  obtain ⟨hdry, hx1, hx2, hy1, hy2⟩ := h
  have hpos := Update_pos k p
  unfold Ashore
  rw [hpos.1, hpos.2]
  by_cases hw : (Player.moveKeys k { p with moving := false }).isInWater = true
  · have hundo : Player.undoInWater p.X p.Y (Player.moveKeys k { p with moving := false })
        = { Player.moveKeys k { p with moving := false } with
            X := p.X, Y := p.Y, moving := false } := by
      unfold Player.undoInWater
      rw [if_pos hw]
    rw [hundo]
    have hc := clamp_inside { Player.moveKeys k { p with moving := false } with
        X := p.X, Y := p.Y, moving := false } hx1 hx2 hy1 hy2
    rw [hc.1, hc.2]
    exact ⟨hdry, hx1, hx2, hy1, hy2⟩
  · have hw2 : (Player.moveKeys k { p with moving := false }).isInWater = false := by
      simpa using hw
    have hundo : Player.undoInWater p.X p.Y (Player.moveKeys k { p with moving := false })
        = Player.moveKeys k { p with moving := false } := by
      unfold Player.undoInWater
      rw [if_neg hw]
    rw [hundo]
    exact ⟨(isInWater_false_iff _).mp (clamp_keeps_dry _ hw2), clamp_box _⟩

theorem Ashore_start : Ashore NewGame.player := by
  norm_num [Ashore, NewGame, NewPlayer, LakeRadius, LakeCenterX, LakeCenterY, ScreenWidth,
    ScreenHeight]

theorem Ashore_walk (ks : List Keys) (p : Player) (h : Ashore p) : Ashore (walk ks p) := by
  induction ks generalizing p with
  | nil => exact h
  | cons k rest ih => exact ih (p.Update k) (Ashore_Update k p h)

theorem upStep (p : Player) (hx : p.X = 320) (hy1 : 825 / 2 ≤ p.Y) (hy2 : p.Y ≤ 460) :
    (p.Update upKey).X = 320 ∧ (p.Update upKey).Y = p.Y - 5 / 2 := by
  have hpos := Update_pos upKey p
  have hmx : (Player.moveKeys upKey { p with moving := false }).X = 320 := by
    simp [Player.moveKeys, upKey, hx]
  have hmy : (Player.moveKeys upKey { p with moving := false }).Y = p.Y - 5 / 2 := by
    simp [Player.moveKeys, upKey, PlayerSpeed]
  have hdry : (Player.moveKeys upKey { p with moving := false }).isInWater = false := by
    rw [isInWater_false_iff, hmx, hmy]
    norm_num [LakeRadius, LakeCenterX, LakeCenterY]
    nlinarith
  have hundo : Player.undoInWater p.X p.Y (Player.moveKeys upKey { p with moving := false })
      = Player.moveKeys upKey { p with moving := false } := by
    unfold Player.undoInWater
    rw [if_neg (by simp [hdry])]
  rw [hpos.1, hpos.2, hundo]
  have hc := clamp_inside (Player.moveKeys upKey { p with moving := false })
    (by rw [hmx]; norm_num) (by rw [hmx]; norm_num [ScreenWidth])
    (by rw [hmy]; linarith) (by rw [hmy]; norm_num [ScreenHeight]; linarith)
  rw [hc.1, hc.2]
  exact ⟨hmx, hmy⟩

theorem walk_up (n : Nat) (hn : n ≤ 20) :
    (walk (List.replicate n upKey) NewGame.player).X = 320 ∧
    (walk (List.replicate n upKey) NewGame.player).Y = 460 - 5 / 2 * (n : ℚ) := by
  induction n with
  | zero => norm_num [walk, NewGame, NewPlayer, LakeCenterX, LakeCenterY, LakeRadius]
  | succ n ih =>
    have ih2 := ih (by omega)
    have hn2 : (n : ℚ) ≤ 19 := by
      have : n ≤ 19 := by omega
      exact_mod_cast this
    have hstep : walk (List.replicate (n + 1) upKey) NewGame.player
        = (walk (List.replicate n upKey) NewGame.player).Update upKey := by
      simp [walk, List.replicate_succ', List.foldl_append]
    rw [hstep]
    have h := upStep (walk (List.replicate n upKey) NewGame.player) ih2.1
      (by rw [ih2.2]; linarith) (by rw [ih2.2]; linarith)
    refine ⟨h.1, ?_⟩
    rw [h.2, ih2.2]
    push_cast
    ring

/-- C14 fails on the code: twenty `Player.Update` calls with Up pressed take the
player from (320, 460) to (320, 410), at distance 170 from the lake centre and
so inside the habitable circle of radius `LakeRadius = 180`. -/
theorem player_enters_habitable_circle :
    (walk (List.replicate 20 upKey) NewGame.player).X = 320 ∧
    (walk (List.replicate 20 upKey) NewGame.player).Y = 410 ∧
    ((walk (List.replicate 20 upKey) NewGame.player).X - LakeCenterX)
        * ((walk (List.replicate 20 upKey) NewGame.player).X - LakeCenterX)
      + ((walk (List.replicate 20 upKey) NewGame.player).Y - LakeCenterY)
        * ((walk (List.replicate 20 upKey) NewGame.player).Y - LakeCenterY)
      < LakeRadius * LakeRadius := by
  have h := walk_up 20 (le_refl 20)
  have hy : (walk (List.replicate 20 upKey) NewGame.player).Y = 410 := by
    rw [h.2]
    norm_num
  refine ⟨h.1, hy, ?_⟩
  rw [h.1, hy]
  norm_num [LakeCenterX, LakeCenterY, LakeRadius]

/-- C14 as the code has it: the water test of the player is distance below
`LakeRadius - 10 = 170`, not below `LakeRadius`.  Starting from (320, 460),
after every sequence of `Player.Update` calls with any key input the player is
at distance at least 170 from the lake centre (320, 240) and inside the screen
box `[20, 620] x [20, 460]`; a move from the shore that would end in the water
is undone; and the screen clamp never moves a player out of the water into it. -/
theorem player_stays_ashore (ks : List Keys) (k : Keys) (p : Player) :
    (NewGame.player.X = 320 ∧ NewGame.player.Y = 460) ∧
    (170 * 170 ≤ ((walk ks NewGame.player).X - 320) * ((walk ks NewGame.player).X - 320)
        + ((walk ks NewGame.player).Y - 240) * ((walk ks NewGame.player).Y - 240) ∧
      20 ≤ (walk ks NewGame.player).X ∧ (walk ks NewGame.player).X ≤ 620 ∧
      20 ≤ (walk ks NewGame.player).Y ∧ (walk ks NewGame.player).Y ≤ 460) ∧
    (p.isInWater = true ↔
      Real.sqrt (((p.X - 320) * (p.X - 320) + (p.Y - 240) * (p.Y - 240) : ℚ) : ℝ) < 170) ∧
    (Ashore p → (Player.moveKeys k { p with moving := false }).isInWater = true →
      (p.Update k).X = p.X ∧ (p.Update k).Y = p.Y) ∧
    (p.isInWater = false → p.clamp.isInWater = false) := by
  refine ⟨?_, ?_, ?_, ?_, clamp_keeps_dry p⟩
  · norm_num [NewGame, NewPlayer, LakeCenterX, LakeCenterY, LakeRadius]
  · have h := Ashore_walk ks NewGame.player Ashore_start
    unfold Ashore at h
    norm_num [LakeRadius, LakeCenterX, LakeCenterY, ScreenWidth, ScreenHeight] at h
    refine ⟨?_, h.2⟩
    have h1 := h.1
    linarith
  · have h := sqrt_lt_iff_sq_lt ((p.X - 320) * (p.X - 320) + (p.Y - 240) * (p.Y - 240)) 170
      (by nlinarith [mul_self_nonneg (p.X - 320), mul_self_nonneg (p.Y - 240)])
    have h2 : ((170 : ℚ) : ℝ) = 170 := by norm_num
    rw [h2] at h
    rw [← h]
    norm_num [Player.isInWater, LakeRadius, LakeCenterX, LakeCenterY]
  · intro hA hw
    obtain ⟨_, hx1, hx2, hy1, hy2⟩ := hA
    have hpos := Update_pos k p
    have hundo : Player.undoInWater p.X p.Y (Player.moveKeys k { p with moving := false })
        = { Player.moveKeys k { p with moving := false } with
            X := p.X, Y := p.Y, moving := false } := by
      unfold Player.undoInWater
      rw [if_pos hw]
    rw [hpos.1, hpos.2, hundo]
    exact clamp_inside { Player.moveKeys k { p with moving := false } with
        X := p.X, Y := p.Y, moving := false } hx1 hx2 hy1 hy2

/-- C14 at the water's edge: from (320, 410) a step up would end at distance
167.5, in the water, and is undone. -/
theorem player_stays_ashore_witness :
    Ashore (NewPlayer 320 410) ∧
    (Player.moveKeys upKey { NewPlayer 320 410 with moving := false }).isInWater = true ∧
    ((NewPlayer 320 410).Update upKey).X = 320 ∧
    ((NewPlayer 320 410).Update upKey).Y = 410 := by
  have hA : Ashore (NewPlayer 320 410) := by
    norm_num [Ashore, NewPlayer, LakeRadius, LakeCenterX, LakeCenterY, ScreenWidth, ScreenHeight]
  have hw : (Player.moveKeys upKey { NewPlayer 320 410 with moving := false }).isInWater
      = true := by
    norm_num [Player.moveKeys, Player.isInWater, upKey, NewPlayer, PlayerSpeed, LakeRadius,
      LakeCenterX, LakeCenterY]
  have h := (player_stays_ashore [] upKey (NewPlayer 320 410)).2.2.2.1 hA hw
  exact ⟨hA, hw, h.1, h.2⟩

/-! ## Corrective steering -/

/-- The boundary branch of a `Swim` tick, for any math library and any draws:
the two velocity components get their own speed draw. -/
theorem SwimTick_boundary (m : MathLib) (r : SwimRand) (f : Fish)
    (hs : f.swimming = true) (ha : f.active = true)
    (hout : (LakeRadius - 20) * (LakeRadius - 20)
      < (f.X + f.vx - LakeCenterX) * (f.X + f.vx - LakeCenterX)
        + (f.Y + f.vy - LakeCenterY) * (f.Y + f.vy - LakeCenterY)) :
    (f.SwimTick m r).X = f.X + f.vx ∧ (f.SwimTick m r).Y = f.Y + f.vy ∧
    (f.SwimTick m r).vx
      = -(m.Cos (m.Atan2 (f.Y + f.vy - LakeCenterY) (f.X + f.vx - LakeCenterX)))
          * (1 / 2 + r.rBackX * 1) ∧
    (f.SwimTick m r).vy
      = -(m.Sin (m.Atan2 (f.Y + f.vy - LakeCenterY) (f.X + f.vx - LakeCenterX)))
          * (1 / 2 + r.rBackY * 1) := by
  unfold Fish.SwimTick
  simp [hs, ha, hout]

/-- C12 fails on the code: a fish that a `Swim` tick leaves at offset (120, 160)
from the lake centre, distance 200 > 160, with boundary speed draws 0 and 1/2,
gets the velocity (-3/10, -4/5); no single speed `s` gives
`(vx, vy) = -s * (120/200, 160/200)`. -/
theorem boundary_steering_two_speeds :
    ((fishAt 440 400 FishCommon).SwimTick pythMath unevenDraws).X - LakeCenterX = 120 ∧
    ((fishAt 440 400 FishCommon).SwimTick pythMath unevenDraws).Y - LakeCenterY = 160 ∧
    ((120 : ℚ) * 120 + 160 * 160 = 200 * 200 ∧ LakeRadius - 20 < 200) ∧
    (pythMath.Cos (pythMath.Atan2 160 120) = 120 / 200 ∧
      pythMath.Sin (pythMath.Atan2 160 120) = 160 / 200) ∧
    ((fishAt 440 400 FishCommon).SwimTick pythMath unevenDraws).vx = -3 / 10 ∧
    ((fishAt 440 400 FishCommon).SwimTick pythMath unevenDraws).vy = -4 / 5 ∧
    ¬ ∃ s : ℚ,
      ((fishAt 440 400 FishCommon).SwimTick pythMath unevenDraws).vx = -s * (120 / 200) ∧
      ((fishAt 440 400 FishCommon).SwimTick pythMath unevenDraws).vy = -s * (160 / 200) := by
  have h := SwimTick_boundary pythMath unevenDraws (fishAt 440 400 FishCommon) rfl rfl
    (by norm_num [fishAt, LakeRadius, LakeCenterX, LakeCenterY])
  obtain ⟨hX, hY, hvx, hvy⟩ := h
  have hvx2 : ((fishAt 440 400 FishCommon).SwimTick pythMath unevenDraws).vx = -3 / 10 := by
    rw [hvx]
    norm_num [pythMath, unevenDraws]
  have hvy2 : ((fishAt 440 400 FishCommon).SwimTick pythMath unevenDraws).vy = -4 / 5 := by
    rw [hvy]
    norm_num [pythMath, unevenDraws]
  refine ⟨?_, ?_, ⟨by norm_num, by norm_num [LakeRadius]⟩,
    ⟨by norm_num [pythMath], by norm_num [pythMath]⟩, hvx2, hvy2, ?_⟩
  · rw [hX]
    norm_num [fishAt, LakeCenterX]
  · rw [hY]
    norm_num [fishAt, LakeCenterY]
  · rintro ⟨s, h1, h2⟩
    rw [hvx2] at h1
    rw [hvy2] at h2
    linarith

/-! ## The delayed reset and the reel -/

theorem Player_Update_not_fishing (k : Keys) (p : Player) (h : p.isFishing = false) :
    (p.Update k).isFishing = false ∧ (p.Update k).fishFrame = p.fishFrame ∧
    (p.Update k).fishFCount = p.fishFCount := by
  have hw : ∀ q : Player, q.isFishing = false →
      (Player.animateFishing (Player.animateWalk q)).isFishing = false ∧
      (Player.animateFishing (Player.animateWalk q)).fishFrame = q.fishFrame ∧
      (Player.animateFishing (Player.animateWalk q)).fishFCount = q.fishFCount := by
    intro q hq
    unfold Player.animateFishing Player.animateWalk
    refine ⟨?_, ?_, ?_⟩ <;> split_ifs <;> simp_all
  have hc : ∀ q : Player, q.clamp.isFishing = q.isFishing ∧ q.clamp.fishFrame = q.fishFrame ∧
      q.clamp.fishFCount = q.fishFCount := fun q => ⟨rfl, rfl, rfl⟩
  have hu : ∀ (x y : ℚ) (q : Player),
      (Player.undoInWater x y q).isFishing = q.isFishing ∧
      (Player.undoInWater x y q).fishFrame = q.fishFrame ∧
      (Player.undoInWater x y q).fishFCount = q.fishFCount := by
    intro x y q
    unfold Player.undoInWater
    refine ⟨?_, ?_, ?_⟩ <;> split_ifs <;> rfl
  have hm : ∀ q : Player, (Player.moveKeys k q).isFishing = q.isFishing ∧
      (Player.moveKeys k q).fishFrame = q.fishFrame ∧
      (Player.moveKeys k q).fishFCount = q.fishFCount := fun q => ⟨rfl, rfl, rfl⟩
  unfold Player.Update
  have h1 := hm { p with moving := false }
  have h2 := hu p.X p.Y (Player.moveKeys k { p with moving := false })
  have h3 := hc (Player.undoInWater p.X p.Y (Player.moveKeys k { p with moving := false }))
  have h4 := hw (Player.clamp (Player.undoInWater p.X p.Y
    (Player.moveKeys k { p with moving := false }))) (by rw [h3.1, h2.1, h1.1]; exact h)
  refine ⟨h4.1, ?_, ?_⟩
  · rw [h4.2.1, h3.2.1, h2.2.1, h1.2.1]
  · rw [h4.2.2, h3.2.2, h2.2.2, h1.2.2]

theorem resetAfterCatch_reeled (g : Game) (hR : Reeled g) :
    g.resetAfterCatch = { g with pendingResets := g.pendingResets - 1 } := by
  obtain ⟨hs, ha, hbs, hbc, hf, hff, hfc⟩ := hR
  obtain ⟨st, sc, fc, cc, rc, ec, lc, pl, bo, fi, sp, ca, fr, stp, pr, ct⟩ := g
  obtain ⟨bx, by2, bact, bst, bcnt⟩ := bo
  obtain ⟨px, py, pd, pm, pf, pfc, pif, pff, pffc, pl3⟩ := pl
  simp only at hs ha hbs hbc hf hff hfc
  subst hs ha hbs hbc hf hff hfc
  rfl

theorem captureTrace_result :
    run southMath NewGame captureTrace
      = { NewGame with
          state := GameState.StateFishing,
          player := (NewPlayer 320 460).Cast,
          bobber := { X := 320, Y := 390, active := false, state := BobberState.BobberCaught,
                      bobCount := 1 },
          catchChan := [FishCommon],
          frameCount := 2,
          stopped := [{ X := 320, Y := 390, vx := 0, vy := 1 / 2, frame := 0, frameCount := 0,
                        active := false, changeDirectionCounter := 0, swimming := true,
                        FishType := FishCommon }],
          pendingResets := 1,
          capturesThisCast := 1 } := by
  norm_num [run, step, captureTrace, Game.fishSpawnerTick, Game.spawnPeriod, Game.randomFishType,
    commonDraw, Game.canSpawnFish, Game.countFishType, NewGame, Game.Update, Game.tickFrame,
    Game.updateBobber, Game.recvSpawn, Game.handleInput, Game.handleCast, Game.handleReel,
    Game.updatePlayer, Game.updateCollisions, Game.cleanupFishes, noKeys, spaceKey, NewBobber,
    Bobber.Update, Bobber.Cast, Bobber.SetState, Player.Update, Player.animateFishing,
    Player.animateWalk, Player.clamp, Player.undoInWater, Player.moveKeys, Player.isInWater,
    Player.IsNearWater, Player.Cast, NewPlayer, LakeCenterX, LakeCenterY, LakeRadius,
    ScreenWidth, ScreenHeight, southMath, Game.spawnFishOfType, NewFish, Game.checkFishCollisions,
    firstCollision, Fish.CheckCollision, FishCommon, FishRare, FishEpic, FishLegendary,
    MaxCommonFish, ChanCap, inCleanupArea, Fish.Stop, reduceCtorEq, FrameDelay]
  simp

theorem recastTrace_result :
    run southMath NewGame recastTrace
      = { NewGame with
          state := GameState.StateFishing,
          player := (NewPlayer 320 460).Cast,
          bobber := { X := 320, Y := 390, active := true, state := BobberState.BobberFloating,
                      bobCount := 1 },
          catchChan := [FishCommon],
          frameCount := 4,
          stopped := [{ X := 320, Y := 390, vx := 0, vy := 1 / 2, frame := 0, frameCount := 0,
                        active := false, changeDirectionCounter := 0, swimming := true,
                        FishType := FishCommon }],
          pendingResets := 1,
          capturesThisCast := 0 } := by
  have hA := captureTrace_result
  simp only [run] at hA
  simp only [run, recastTrace, List.foldl_append, hA]
  norm_num [step, NewGame, Game.Update, Game.tickFrame,
    Game.updateBobber, Game.recvSpawn, Game.handleInput, Game.handleCast, Game.handleReel,
    Game.updatePlayer, Game.updateCollisions, Game.cleanupFishes, rKey, spaceKey, NewBobber,
    Bobber.Update, Bobber.Cast, Bobber.Reset, Player.Update, Player.animateFishing,
    Player.animateWalk, Player.clamp, Player.undoInWater, Player.moveKeys, Player.isInWater,
    Player.IsNearWater, Player.Cast, Player.StopFishing, NewPlayer, LakeCenterX, LakeCenterY,
    LakeRadius, ScreenWidth, ScreenHeight, southMath, Game.checkFishCollisions,
    firstCollision, inCleanupArea, reduceCtorEq, FrameDelay]
  try simp

/-- C11 fails on the code: after a capture the player reels in and casts again
while the reset of the capture is still pending; the new cast is active, in
`StateFishing`, with the fishing flag set.  When `resetAfterCatch` then runs it
puts the game in `StatePlaying`, deactivates the probe and clears the flag. -/
theorem stale_reset_ends_new_cast :
    ((run southMath NewGame recastTrace).bobber.active = true ∧
      (run southMath NewGame recastTrace).state = GameState.StateFishing ∧
      (run southMath NewGame recastTrace).player.isFishing = true ∧
      (run southMath NewGame recastTrace).pendingResets = 1) ∧
    ((step southMath (run southMath NewGame recastTrace) Event.reset).bobber.active = false ∧
      (step southMath (run southMath NewGame recastTrace) Event.reset).state
        = GameState.StatePlaying ∧
      (step southMath (run southMath NewGame recastTrace) Event.reset).player.isFishing
        = false) := by
  rw [recastTrace_result]
  simp [step, Game.resetAfterCatch, Bobber.Reset, Player.StopFishing, Player.Cast, NewPlayer]

/-! ## One capture per cast, at the grain of statements -/

theorem Update_reeled_nocast (m : MathLib) (k : Keys) (g : Game) (hR : Reeled g)
    (hk : g.castsOn k = false) :
    (g.Update m k).state = g.state ∧ (g.Update m k).bobber = g.bobber ∧
    (g.Update m k).player = g.player.Update k := by
  obtain ⟨hs, ha, _, _, _, _, _⟩ := hR
  simp only [Game.castsOn, hs, decide_True, Bool.and_true] at hk
  have hcast : ∀ g2 : Game, g2.state = g.state → g2.player = g.player →
      g2.handleCast m k = g2 := by
    intro g2 h1 h2
    unfold Game.handleCast
    rw [h1, h2, hs]
    by_cases hsp : k.space = true
    · have hn : g.player.IsNearWater = false := by simpa [hsp] using hk
      simp [hsp, hn]
    · simp [hsp]
  cases hq : g.spawnChan <;>
    simp [Game.Update, Game.cleanupFishes, Game.updateCollisions, Game.updateBobber,
      Game.updatePlayer, Game.handleInput, Game.handleReel, Game.recvSpawn,
      Game.tickFrame, Bobber.Update, hq, hs, ha, hcast]

theorem Reeled_step_nocast (m : MathLib) (g : Game) (e : Event) (hR : Reeled g)
    (he : ∀ k, e = Event.update k → g.castsOn k = false) : Reeled (step m g e) := by
  have hR2 := hR
  obtain ⟨hs, ha, hbs, hbc, hf, hff, hfc⟩ := hR
  cases e with
  | spawner r =>
    simp only [step, Game.fishSpawnerTick, Game.spawnPeriod]
    split_ifs <;> exact hR2
  | update k =>
    have h := Update_reeled_nocast m k g hR2 (he k rfl)
    have hp := Player_Update_not_fishing k g.player hf
    unfold Reeled
    simp only [step]
    rw [h.1, h.2.1, h.2.2, hp.1, hp.2.1, hp.2.2]
    exact ⟨hs, ha, hbs, hbc, rfl, hff, hfc⟩
  | swim i r => exact hR2
  | swimStopped i r => exact hR2
  | catchProc =>
    simp only [step, Game.catchProcessorTick]
    split
    · exact hR2
    · simp only [Game.catchProcessorHandle]
      split_ifs <;> exact hR2
  | reset =>
    simp only [step]
    split
    · exact hR2
    · simp [Reeled, Game.resetAfterCatch, Bobber.Reset, Player.StopFishing]

theorem Reeled_run_nocast (m : MathLib) (evs : List Event) (g : Game) (hR : Reeled g)
    (he : NoCast m g evs) : Reeled (run m g evs) := by
  induction evs generalizing g with
  | nil => exact hR
  | cons e rest ih => exact ih (step m g e) (Reeled_step_nocast m g e hR he.1) he.2

/-- A tick with R pressed in `StateFishing` leaves the game reeled and the count
of pending resets as it was. -/
theorem Update_reel (m : MathLib) (k : Keys) (g : Game) (hk : k.keyR = true)
    (hs : g.state = GameState.StateFishing) :
    Reeled (g.Update m k) := by
  have hr1 : Reeled (g.tickFrame.recvSpawn.handleInput m k) := by
    have hst : g.tickFrame.recvSpawn.state = GameState.StateFishing := by
      rw [(recvSpawn_same g.tickFrame).1]
      exact hs
    have hc : g.tickFrame.recvSpawn.handleCast m k = g.tickFrame.recvSpawn := by
      unfold Game.handleCast
      simp [hst]
    unfold Game.handleInput
    rw [hc]
    simp [Reeled, Game.handleReel, hk, hst, Bobber.Reset, Player.StopFishing]
  obtain ⟨h1, h2, h3, h4, h5, h6, h7⟩ := hr1
  have hp := Player_Update_not_fishing k (g.tickFrame.recvSpawn.handleInput m k).player h5
  have hbu : (Game.updateBobber (Game.updatePlayer k
      (g.tickFrame.recvSpawn.handleInput m k))).bobber
      = (g.tickFrame.recvSpawn.handleInput m k).bobber := by
    simp [Game.updateBobber, Game.updatePlayer, h1, Bobber.Update, h2]
  have hact : (Game.updateBobber (Game.updatePlayer k
      (g.tickFrame.recvSpawn.handleInput m k))).bobber.active = false := by
    rw [hbu]; exact h2
  unfold Game.Update
  rw [updateCollisions_inactive _ hact]
  simp only [Reeled, Game.cleanupFishes]
  rw [hbu]
  simp only [Game.updateBobber, Game.updatePlayer, h1, if_true]
  exact ⟨trivial, h2, h3, h4, hp.1, by rw [hp.2.1]; exact h6, by rw [hp.2.2]; exact h7⟩

theorem Reeled_of_same (g g2 : Game) (h : Reeled g) (h1 : g2.state = g.state)
    (h2 : g2.bobber = g.bobber) (h3 : g2.player = g.player) : Reeled g2 := by
  unfold Reeled at h ⊢
  rw [h1, h2, h3]
  exact h

theorem FineReeled_main (m : MathLib) (k : Keys) (s : Fine) (h : FineReeled s)
    (hk : s.pc = MainPc.inputSpace → s.g.castsOn k = false) : FineReeled (mainStep m k s) := by
  obtain ⟨hR, hc, hl⟩ := h
  have hR2 := hR
  obtain ⟨hs, ha, hbs, hbc, hf, hff, hfc⟩ := hR
  unfold mainStep
  split
  · -- idle
    split <;> exact ⟨Reeled_of_same s.g _ hR2 rfl rfl rfl, by simp, by simp⟩
  · -- register
    split
    · exact ⟨hR2, by simp, by simp⟩
    · split
      · exact ⟨Reeled_of_same s.g _ hR2 rfl rfl rfl, by simp, by simp⟩
      · exact ⟨hR2, hc, hl⟩
  · -- inputSpace
    rename_i hpc
    refine ⟨hR2, ?_, by simp⟩
    intro hlatch
    simp only at hlatch
    rw [hk hpc] at hlatch
    exact absurd hlatch (by decide)
  · -- castState
    rename_i hpc
    have hcl : s.castLatch = false := by
      by_contra hne
      exact (hc (by simpa using hne)).1 hpc
    exact ⟨by simp only [hcl]; exact hR2, by simp [hcl], by simp⟩
  · -- castPlayer
    rename_i hpc
    have hcl : s.castLatch = false := by
      by_contra hne
      exact (hc (by simpa using hne)).2.1 hpc
    exact ⟨by simp only [hcl]; exact hR2, by simp [hcl], by simp⟩
  · -- castBobber
    rename_i hpc
    have hcl : s.castLatch = false := by
      by_contra hne
      exact (hc (by simpa using hne)).2.2 hpc
    exact ⟨by simp only [hcl]; exact hR2, by simp, by simp⟩
  · -- reelTest
    exact ⟨hR2, by simp, by simp⟩
  · -- reelState
    refine ⟨?_, by simp, by simp⟩
    simp only
    split
    · exact ⟨rfl, ha, hbs, hbc, hf, hff, hfc⟩
    · exact hR2
  · -- reelBobber
    refine ⟨?_, by simp, by simp⟩
    simp only
    split
    · exact ⟨hs, rfl, rfl, rfl, hf, hff, hfc⟩
    · exact hR2
  · -- reelPlayer
    refine ⟨?_, by simp, by simp⟩
    simp only
    split
    · exact ⟨hs, ha, hbs, hbc, rfl, rfl, rfl⟩
    · exact hR2
  · -- playerStep
    refine ⟨?_, by simp, by simp⟩
    have hp := Player_Update_not_fishing k s.g.player hf
    simp only [Game.updatePlayer, hs, if_true]
    exact ⟨rfl, ha, hbs, hbc, hp.1, by rw [hp.2.1]; exact hff, by rw [hp.2.2]; exact hfc⟩
  · -- bobberStep
    refine ⟨?_, by simp, by simp⟩
    have hb : s.g.bobber.Update = s.g.bobber := by simp [Bobber.Update, ha]
    simp only [Game.updateBobber, hb]
    exact hR2
  · -- activeTest
    refine ⟨hR2, by simp, ?_⟩
    intro hlatch
    simp only at hlatch
    rw [ha] at hlatch
    exact absurd hlatch (by decide)
  · -- collide
    rename_i hpc
    have hll : s.collideLatch = false := by
      by_contra hne
      exact hl (by simpa using hne) hpc
    simp only [hll]
    exact ⟨hR2, by simp, by simp⟩
  · -- cleanup
    split
    · exact ⟨Reeled_of_same s.g _ hR2 (cleanupFishes_same s.g).1 (cleanupFishes_same s.g).2.1
        (by simp [Game.cleanupFishes]), by simp, by simp⟩
    · exact ⟨hR2, hc, hl⟩

/-- On a reeled game each statement of `resetAfterCatch` leaves the game state,
the probe and the player as they are. -/
theorem resetStep_reeled (s : Fine) (h : FineReeled s) :
    FineReeled (resetStep s) ∧ (resetStep s).g.state = s.g.state ∧
    (resetStep s).g.bobber = s.g.bobber ∧ (resetStep s).g.player = s.g.player := by
  obtain ⟨hR, hc, hl⟩ := h
  have hR2 := hR
  obtain ⟨hs, ha, hbs, hbc, hf, hff, hfc⟩ := hR
  have hb : s.g.bobber.Reset = s.g.bobber := by
    obtain ⟨g, pc, rf, c, r, l, rp⟩ := s
    obtain ⟨st, sc, fc, cc, rc, ec, lc, pl, bo, fi, sp, ca, fr, stp, pr, ct⟩ := g
    obtain ⟨bx, by2, bact, bst, bcnt⟩ := bo
    simp only at ha hbs hbc
    subst ha hbs hbc
    rfl
  have hp : s.g.player.StopFishing = s.g.player := by
    obtain ⟨g, pc, rf, c, r, l, rp⟩ := s
    obtain ⟨st, sc, fc, cc, rc, ec, lc, pl, bo, fi, sp, ca, fr, stp, pr, ct⟩ := g
    obtain ⟨px, py, pd, pm, pf, pfc, pif, pff, pffc, pl3⟩ := pl
    simp only at hf hff hfc
    subst hf hff hfc
    rfl
  unfold resetStep
  split
  · split
    · exact ⟨⟨hR2, hc, hl⟩, rfl, rfl, rfl⟩
    · exact ⟨⟨⟨rfl, ha, hbs, hbc, hf, hff, hfc⟩, hc, hl⟩, hs.symm, rfl, rfl⟩
  · exact ⟨⟨Reeled_of_same s.g _ hR2 rfl hb rfl, hc, hl⟩, rfl, hb, rfl⟩
  · exact ⟨⟨Reeled_of_same s.g _ hR2 rfl rfl hp, hc, hl⟩, rfl, rfl, hp⟩

theorem otherStep_reeled (m : MathLib) (s : Fine) (e : Event) (h : FineReeled s) :
    FineReeled (otherStep m s e) := by
  obtain ⟨hR, hc, hl⟩ := h
  cases e with
  | spawner r =>
    simp only [otherStep, Game.fishSpawnerTick, Game.spawnPeriod]
    split_ifs <;> exact ⟨hR, hc, hl⟩
  | update k => exact ⟨hR, hc, hl⟩
  | swim i r => exact ⟨hR, hc, hl⟩
  | swimStopped i r => exact ⟨hR, hc, hl⟩
  | catchProc =>
    simp only [otherStep]
    split
    · simp only [Game.catchProcessorTick]
      split
      · exact ⟨hR, hc, hl⟩
      · simp only [Game.catchProcessorHandle]
        split_ifs <;> exact ⟨hR, hc, hl⟩
    · exact ⟨hR, hc, hl⟩
  | reset => exact ⟨hR, hc, hl⟩

theorem FineReeled_run (m : MathLib) (evs : List FineEvent) (s : Fine) (h : FineReeled s)
    (hn : NoCastFine m s evs) : FineReeled (fineRun m s evs) := by
  induction evs generalizing s with
  | nil => exact h
  | cons e rest ih =>
    refine ih (fineStep m s e) ?_ hn.2
    cases e with
    | main k => exact FineReeled_main m k s h (hn.1 k rfl)
    | reset => exact (resetStep_reeled s h).1
    | other e => exact otherStep_reeled m s e h

theorem NoCastFine_of_no_space (m : MathLib) (evs : List FineEvent) (s : Fine)
    (h : ∀ e ∈ evs, ∀ k, e = FineEvent.main k → k.space = false) : NoCastFine m s evs := by
  induction evs generalizing s with
  | nil => exact trivial
  | cons e rest ih =>
    refine ⟨?_, ih _ (fun e2 he2 => h e2 (List.mem_cons_of_mem _ he2))⟩
    intro k hk _
    simp [Game.castsOn, h e (List.mem_cons_self _ _) k hk]

theorem Update_reel_pending (m : MathLib) (k : Keys) (g : Game) (hk : k.keyR = true)
    (hs : g.state = GameState.StateFishing) :
    (g.Update m k).pendingResets = g.pendingResets := by
  have hst : g.tickFrame.recvSpawn.state = GameState.StateFishing := by
    rw [(recvSpawn_same g.tickFrame).1]
    exact hs
  have hc : g.tickFrame.recvSpawn.handleCast m k = g.tickFrame.recvSpawn := by
    unfold Game.handleCast
    simp [hst]
  have hact : (g.tickFrame.recvSpawn.handleInput m k).bobber.active = false := by
    unfold Game.handleInput
    rw [hc]
    simp [Game.handleReel, hk, hst, Bobber.Reset]
  have hp := updatePlayer_same k (g.tickFrame.recvSpawn.handleInput m k)
  have hb : (Game.updateBobber (Game.updatePlayer k
      (g.tickFrame.recvSpawn.handleInput m k))).bobber.active = false := by
    show (Bobber.Update _).active = false
    rw [(bobberUpdate_same _).1, hp.2.1]
    exact hact
  unfold Game.Update
  rw [(cleanupFishes_same _).2.2.2.1, updateCollisions_inactive _ hb]
  show (Game.updatePlayer k _).pendingResets = _
  rw [hp.2.2.2.1, (handleInput_frame m k _).1, (recvSpawn_same _).2.2.2.1]
  rfl

/-- C11 as the code has it: a reel does not cancel the pending reset.  Whenever
`resetAfterCatch` runs it sets the game state to `StatePlaying`, deactivates the
probe (state floating) and clears the fishing flag; a reel, and the tick that
makes it, leave the count of pending resets as it is and the game reeled.  As
long as no cast is made after the reel the game stays reeled, tick by tick and
statement by statement, and on a reeled game `resetAfterCatch`, and each of its
statements, leaves the game state, the probe and the player as they are. -/
theorem reset_not_cancelled_by_reel (m : MathLib) (g : Game) (k : Keys) (evs : List Event)
    (s : Fine) (fevs : List FineEvent) :
    (g.resetAfterCatch.state = GameState.StatePlaying ∧
      g.resetAfterCatch.bobber.active = false ∧
      g.resetAfterCatch.bobber.state = BobberState.BobberFloating ∧
      g.resetAfterCatch.player.isFishing = false) ∧
    (g.handleReel k).pendingResets = g.pendingResets ∧
    (k.keyR = true → g.state = GameState.StateFishing →
      Reeled (g.handleReel k) ∧ Reeled (g.Update m k) ∧
      (g.Update m k).pendingResets = g.pendingResets) ∧
    (Reeled g → NoCast m g evs →
      Reeled (run m g evs) ∧
      (run m g evs).resetAfterCatch
        = { run m g evs with pendingResets := (run m g evs).pendingResets - 1 }) ∧
    (FineReeled s → NoCastFine m s fevs →
      FineReeled (fineRun m s fevs) ∧
      (resetStep (fineRun m s fevs)).g.state = (fineRun m s fevs).g.state ∧
      (resetStep (fineRun m s fevs)).g.bobber = (fineRun m s fevs).g.bobber ∧
      (resetStep (fineRun m s fevs)).g.player = (fineRun m s fevs).g.player) := by
  refine ⟨⟨rfl, rfl, rfl, rfl⟩, ?_, ?_, ?_, ?_⟩
  · unfold Game.handleReel
    split_ifs <;> rfl
  · intro hk hs
    refine ⟨?_, Update_reel m k g hk hs, Update_reel_pending m k g hk hs⟩
    simp [Reeled, Game.handleReel, hk, hs, Bobber.Reset, Player.StopFishing]
  · intro hR he
    have h := Reeled_run_nocast m evs g hR he
    exact ⟨h, resetAfterCatch_reeled _ h⟩
  · intro hR he
    have h := FineReeled_run m fevs s hR he
    exact ⟨h, (resetStep_reeled _ h).2⟩

/-- C11 on a capture followed by a reel and no new cast: the capture leaves one
reset pending; the tick with R leaves the game reeled with that reset still
pending; after an idle tick, run as one step or statement by statement, the
reset leaves the probe as it is. -/
theorem reset_not_cancelled_by_reel_witness :
    (run southMath NewGame captureTrace).state = GameState.StateFishing ∧
    (run southMath NewGame captureTrace).pendingResets = 1 ∧
    Reeled ((run southMath NewGame captureTrace).Update southMath rKey) ∧
    ((run southMath NewGame captureTrace).Update southMath rKey).pendingResets = 1 ∧
    (run southMath ((run southMath NewGame captureTrace).Update southMath rKey)
        [Event.update noKeys]).resetAfterCatch.bobber
      = (run southMath ((run southMath NewGame captureTrace).Update southMath rKey)
        [Event.update noKeys]).bobber ∧
    (resetStep (fineRun southMath
        { g := (run southMath NewGame captureTrace).Update southMath rKey, pc := MainPc.idle,
          recvFish := none, castLatch := false, reelLatch := false, collideLatch := false,
          resetPc := ResetPc.free } (wholeUpdate noKeys))).g.bobber
      = (fineRun southMath
        { g := (run southMath NewGame captureTrace).Update southMath rKey, pc := MainPc.idle,
          recvFish := none, castLatch := false, reelLatch := false, collideLatch := false,
          resetPc := ResetPc.free } (wholeUpdate noKeys)).g.bobber := by
  have hst : (run southMath NewGame captureTrace).state = GameState.StateFishing := by
    rw [captureTrace_result]
  have hpend : (run southMath NewGame captureTrace).pendingResets = 1 := by
    rw [captureTrace_result]
  have h1 := (reset_not_cancelled_by_reel southMath (run southMath NewGame captureTrace) rKey []
    Fine.init []).2.2.1 rfl hst
  have h2 := (reset_not_cancelled_by_reel southMath
    ((run southMath NewGame captureTrace).Update southMath rKey) rKey [Event.update noKeys]
    { g := (run southMath NewGame captureTrace).Update southMath rKey, pc := MainPc.idle,
      recvFish := none, castLatch := false, reelLatch := false, collideLatch := false,
      resetPc := ResetPc.free } (wholeUpdate noKeys)).2.2.2
  have h3 := h2.1 h1.2.1
    ⟨by
      intro k hk
      cases hk
      simp [Game.castsOn, noKeys], trivial⟩
  have h4 := h2.2 ⟨h1.2.1, by simp, by simp⟩
    (NoCastFine_of_no_space _ _ _ (by
      intro e he k hk
      unfold wholeUpdate at he
      rw [List.eq_of_mem_replicate he] at hk
      cases hk
      rfl))
  refine ⟨hst, hpend, h1.2.1, by rw [h1.2.2, hpend], ?_, h4.2.2.1⟩
  rw [h3.2]

end FishingGame
